import Mathlib

/-!
Verification development for the opsocket.js WebSocket client core.

The JavaScript source is shallowly embedded: byte buffers become `List Nat`
(each element a byte value), the module-level linked list of chunks in
`src/Utilities/BufferList.js` becomes an explicit `BLState` threaded through
the operations, and the incremental frame decoder `BaseFrame.push` from
`src/Frames/Frame.js` becomes a pure function on `BaseFrame × BLState`.
-/

set_option maxHeartbeats 1000000

/-! ### Constants (src/Constants.js) -/

namespace BinaryHelpers

def OPCode : Nat := 0x0F

def Length : Nat := 0x7F

def Fin : Nat := 0x80

end BinaryHelpers

namespace OPCodes

def Continuation : Nat := 0x0

def TextMessage : Nat := 0x1

def BinaryMessage : Nat := 0x2

def SocketClose : Nat := 0x8

def Ping : Nat := 0x9

def Pong : Nat := 0xA

end OPCodes

namespace ConnectionStates

def Open : Nat := 0

def Handshaking : Nat := 1

def Closing : Nat := 2

def Closed : Nat := 3

end ConnectionStates

namespace FrameStates

def ParsingHeader : Nat := 1

def Awaiting16Bit : Nat := 2

def Awaiting64Bit : Nat := 3

def AwaitingPayload : Nat := 4

def Finalized : Nat := 5

end FrameStates

def Byte : Nat := 255

def HeaderConcatNonce : String := "258EAFA5-E914-47DA-95CA-C5AB0DC85B11"

/-! ### Byte queue (src/Utilities/BufferList.js)

The source keeps `head`, `last`, `length` and `offset` at module scope, so all
`BufferList` instances share one queue.  `BLState` is that module state: the
chunk list (head first; `last` always points at the final node, so `write`
appends at the end), the read offset into the head chunk, and the stored
`length` counter which the source maintains separately from the chunk list. -/

structure BLState where
  chunks : List (List Nat)
  offset : Nat
  len : Nat
deriving DecidableEq, Repr

def BLState.empty : BLState := ⟨[], 0, 0⟩

/-- `BufferList.write(buf)`: appends the chunk at `last` (or installs it as
`head` when the list is empty) and adds its size to the module `length`. -/
def BLState.write (bl : BLState) (buf : List Nat) : BLState :=
  ⟨bl.chunks ++ [buf], bl.offset, bl.len + buf.length⟩

/-- The `while` loop of `BufferList.advance`: drop fully consumed head chunks,
reducing the offset by each dropped chunk's size. -/
def advanceLoop : Nat → List (List Nat) → Nat × List (List Nat)
  | off, [] => (off, [])
  | off, c :: cs => if c.length ≤ off then advanceLoop (off - c.length) cs else (off, c :: cs)

/-- `BufferList.advance(n)`: `offset += n; length -= n;` then the drop loop. -/
def BLState.advance (bl : BLState) (n : Nat) : BLState :=
  let p := advanceLoop (bl.offset + n) bl.chunks
  ⟨p.2, p.1, bl.len - n⟩

/-- `Buffer.copy(target, targetStart, sourceStart, sourceEnd)` of Node:
copy `src[sourceStart, sourceEnd)` into `tgt` at `targetStart`, clamped to the
bounds of both buffers. -/
def bufCopy (src tgt : List Nat) (tgtStart srcStart srcEnd : Nat) : List Nat :=
  let seg := ((src.drop srcStart).take (srcEnd - srcStart)).take (tgt.length - tgtStart)
  tgt.take tgtStart ++ seg ++ tgt.drop (tgtStart + seg.length)

/-- The `forEach` loop shared by `BufferList.join` and `BufferList.joinInto`:
walk the chunk chain with a running index `ix`, copying every chunk that
intersects `[srcStart, srcEnd)` into `big`, and stop once `ix` passes
`srcEnd`.  `join` is the `tgtStart = 0` instance. -/
def joinLoop (srcStart srcEnd tgtStart : Nat) : List Nat → Nat → List (List Nat) → List Nat
  | big, _, [] => big
  | big, ix, c :: cs =>
    let big1 := if srcStart < ix + c.length ∧ ix < srcEnd then
        bufCopy c big (max tgtStart (tgtStart + ix - srcStart)) (srcStart - ix)
          (min c.length (srcEnd - ix))
      else big
    if srcEnd < ix + c.length then big1 else joinLoop srcStart srcEnd tgtStart big1 (ix + c.length) cs

/-- `BufferList.join(start, end)`: allocate `end - start` bytes (allocUnsafe is
modeled as zero-filled) and run the copy loop over `(head.drop offset) :: rest`.
With an empty chain the source returns an empty buffer; a fully consumed head
chunk short-circuits `forEach`, leaving the fresh buffer unwritten. -/
def BLState.join (bl : BLState) (start end_ : Nat) : List Nat :=
  match bl.chunks with
  | [] => []
  | c :: cs =>
    let big := List.replicate (end_ - start) 0
    if c.length ≤ bl.offset then big
    else joinLoop start end_ 0 big 0 ((c.drop bl.offset) :: cs)

/-- `BufferList.joinInto(targetBuffer, targetStart, sourceStart, sourceEnd)`:
same loop but writing into a caller-supplied buffer.  The source throws on
insufficient target space (modeled as leaving the target unchanged; the
decoder call sites always satisfy the bound) and leaves the target untouched
when the chain is empty. -/
def BLState.joinInto (bl : BLState) (tgt : List Nat) (tgtStart srcStart srcEnd : Nat) : List Nat :=
  match bl.chunks with
  | [] => tgt
  | c :: cs =>
    if tgt.length - tgtStart < srcEnd - srcStart then tgt
    else if c.length ≤ bl.offset then tgt
    else joinLoop srcStart srcEnd tgtStart tgt 0 ((c.drop bl.offset) :: cs)

/-- `BufferList.take(n)`: `join(0, n)`. -/
def BLState.take (bl : BLState) (n : Nat) : List Nat := bl.join 0 n

/-- The logical unread byte sequence of the queue. -/
def BLState.toBytes (bl : BLState) : List Nat :=
  match bl.chunks with
  | [] => []
  | c :: cs => c.drop bl.offset ++ cs.flatten

/-- The offset component of the queue invariant: the read offset stays inside
the head chunk, and is `0` when the chain is empty. -/
def BLState.headOk (bl : BLState) : Prop :=
  match bl.chunks with
  | [] => bl.offset = 0
  | c :: _ => bl.offset < c.length

/-- The representation invariant maintained by `write`/`advance`: chunks are
nonempty, the offset stays inside the head chunk, and the stored `length`
counter equals the number of unread bytes. -/
def BLInv (bl : BLState) : Prop :=
  (∀ c ∈ bl.chunks, c ≠ []) ∧ bl.headOk ∧ bl.len = bl.toBytes.length

/-! ### Inbound frame decoder (src/Frames/Frame.js, `BaseFrame`) -/

structure BaseFrame where
  frameHeader : List Nat
  state : Nat
  firstByte : Option Nat
  secondByte : Option Nat
  fin : Bool
  opcode : Nat
  length : Nat
  data : List Nat
deriving DecidableEq, Repr

/-- The `BaseFrame` constructor: stores the shared header buffer and starts in
`ParsingHeader`.  `fin`, `opcode`, `length` and `data` are not assigned by the
source constructor (they are `undefined` until `push` sets them); they are
modeled with inert defaults, and `push` assigns each before any read. -/
def BaseFrame.init (frameHeader : List Nat) : BaseFrame :=
  { frameHeader := frameHeader, state := FrameStates.ParsingHeader,
    firstByte := none, secondByte := none,
    fin := false, opcode := 0, length := 0, data := [] }

/-- `Buffer.readUInt16BE(i)` over a byte list. -/
def readUInt16BE (l : List Nat) (i : Nat) : Nat := 256 * l.getD i 0 + l.getD (i + 1) 0

/-- `Buffer.readUInt32BE(i)` over a byte list. -/
def readUInt32BE (l : List Nat) (i : Nat) : Nat :=
  16777216 * l.getD i 0 + 65536 * l.getD (i + 1) 0 + 256 * l.getD (i + 2) 0 + l.getD (i + 3) 0

/-- The `ParsingHeader` block of `BaseFrame.push`.  `Except.error` is the
`return false` path (nothing consumed); `Except.ok` falls through to the
extended-length block. -/
def BaseFrame.stageHeader (fr : BaseFrame) (bl : BLState) :
    Except (BaseFrame × BLState) (BaseFrame × BLState) :=
  if fr.state = FrameStates.ParsingHeader then
    if bl.len ≤ 1 then Except.error (fr, bl)
    else
      let hdr := bl.joinInto fr.frameHeader 0 0 2
      let bl1 := bl.advance 2
      let firstByte := hdr.getD 0 0
      let secondByte := hdr.getD 1 0
      let len7 := secondByte &&& BinaryHelpers.Length
      let st := if len7 = 126 then FrameStates.Awaiting16Bit
        else if len7 = 127 then FrameStates.Awaiting64Bit
        else FrameStates.AwaitingPayload
      Except.ok ({ fr with
        frameHeader := hdr,
        firstByte := some firstByte,
        secondByte := some secondByte,
        fin := firstByte &&& BinaryHelpers.Fin != 0,
        opcode := firstByte &&& BinaryHelpers.OPCode,
        length := len7,
        state := st }, bl1)
  else Except.ok (fr, bl)

/-- The `Awaiting16Bit` / `Awaiting64Bit` blocks of `BaseFrame.push`.  The
64-bit branch mirrors the source exactly: it consumes all 8 extended-length
bytes but computes `length` with `readUInt32BE(6)`, i.e. from the low 32 bits
only. -/
def BaseFrame.stageExt (fr : BaseFrame) (bl : BLState) :
    Except (BaseFrame × BLState) (BaseFrame × BLState) :=
  if fr.state = FrameStates.Awaiting16Bit then
    if bl.len ≤ 1 then Except.error (fr, bl)
    else
      let hdr := bl.joinInto fr.frameHeader 2 0 2
      let bl1 := bl.advance 2
      Except.ok ({ fr with
        frameHeader := hdr,
        length := readUInt16BE hdr 2,
        state := FrameStates.AwaitingPayload }, bl1)
  else if fr.state = FrameStates.Awaiting64Bit then
    if bl.len ≤ 7 then Except.error (fr, bl)
    else
      let hdr := bl.joinInto fr.frameHeader 2 0 8
      let bl1 := bl.advance 8
      Except.ok ({ fr with
        frameHeader := hdr,
        length := readUInt32BE hdr 6,
        state := FrameStates.AwaitingPayload }, bl1)
  else Except.ok (fr, bl)

/-- The `AwaitingPayload` block of `BaseFrame.push`, including the source's
zero-length special case (which sets `data` and finalizes, then falls through
to the generic take/advance path). -/
def BaseFrame.stagePayload (fr : BaseFrame) (bl : BLState) : BaseFrame × BLState × Bool :=
  if fr.state = FrameStates.AwaitingPayload then
    let fr1 := if fr.length = 0 then
        { fr with data := [], state := FrameStates.Finalized }
      else fr
    if bl.len < fr1.length then (fr1, bl, false)
    else
      let d := bl.take fr1.length
      let bl1 := bl.advance fr1.length
      ({ fr1 with data := d, state := FrameStates.Finalized }, bl1, true)
  else (fr, bl, false)

/-- `BaseFrame.push(bufferList)`: the three blocks run in sequence within one
call; an early `return false` stops the chain. -/
def BaseFrame.push (fr : BaseFrame) (bl : BLState) : BaseFrame × BLState × Bool :=
  match fr.stageHeader bl with
  | Except.error (f, b) => (f, b, false)
  | Except.ok (f1, b1) =>
    match f1.stageExt b1 with
    | Except.error (f, b) => (f, b, false)
    | Except.ok (f2, b2) => f2.stagePayload b2

/-- A fresh decoder over a fresh queue holding the whole stream as one chunk,
pushed once (the WebSocket allocates a 10-byte header buffer,
`Buffer.allocUnsafe(10)`, modeled zero-filled). -/
def decodeOnce (s : List Nat) : BaseFrame × BLState × Bool :=
  BaseFrame.push (BaseFrame.init (List.replicate 10 0)) (BLState.empty.write s)

/-- The chunked feeding process of the claim: append one chunk to the queue,
call `push`, repeat.  Returns the decoder and queue after the final push. -/
def feedBL : BaseFrame → BLState → List (List Nat) → BaseFrame × BLState
  | fr, bl, [] => (fr, bl)
  | fr, bl, c :: cs =>
    let p := fr.push (bl.write c)
    feedBL p.1 p.2.1 cs

/-! ### Masking (src/Utilities/FrameMask.js) -/

/-- The body of the `FrameMask` loop: XOR each byte from the running index `i`
on with `mask[i % 4]`. -/
def maskBytes (mask : List Nat) : Nat → List Nat → List Nat
  | _, [] => []
  | i, b :: rest => (b ^^^ mask.getD (i % 4) 0) :: maskBytes mask (i + 1) rest

/-- `FrameMask(payload, mask, offset)`: bytes before `offset` pass through;
from `offset` to the end each byte is XORed with `mask[index % 4]`, the index
counting from the start of the masked region. -/
def FrameMask (payload mask : List Nat) (offset : Nat) : List Nat :=
  payload.take offset ++ maskBytes mask 0 (payload.drop offset)

/-! ### Outbound frame encoder (src/Frames/OutboundFrame.js) -/

/-- In-place region write, as Node's `Buffer.copy(target, targetStart)` with a
pre-clamped segment. -/
def spliceAt (tgt : List Nat) (t : Nat) (seg : List Nat) : List Nat :=
  tgt.take t ++ seg ++ tgt.drop (t + seg.length)

structure OutboundFrame where
  frame : List Nat
  header : Nat
  offset : Nat
deriving DecidableEq, Repr

/-- `data.writeUInt16BE(closeCode, 0)` into the 2-byte prefix created by
`Buffer.concat([Buffer.allocUnsafe(2), data])`. -/
def writeCloseCodePrefix (closeCode : Nat) (data : List Nat) : List Nat :=
  (closeCode / 256) % 256 :: closeCode % 256 :: data

/-- The `OutboundFrame` constructor: chooses the 7-bit / 16-bit / 64-bit
length encoding, allocates `length + header + 4` bytes (allocUnsafe modeled
zero-filled), writes `0x80 | opcode`, the length bytes (with the source's
literal divisors, including `72057594037927940` where `2^56` was intended),
prepends the close code for Close frames, and copies the payload at
`header + 4`. -/
def OutboundFrame.build (opcode : Nat) (data0 : List Nat) (closeCode : Nat) : OutboundFrame :=
  let isClose := opcode = OPCodes.SocketClose
  let length := data0.length + (if isClose then 2 else 0)
  let header := if length ≤ 125 then 2 else if length ≤ 65535 then 4 else 10
  let offset := header + 4
  let frame0 := List.replicate (length + offset) 0
  let frame1 := frame0.set 0 (128 ||| opcode)
  let frame2 :=
    if length ≤ 125 then frame1.set 1 (128 ||| length)
    else if length ≤ 65535 then
      ((frame1.set 1 254).set 2 (length / 256)).set 3 (length &&& Byte)
    else
      ((((((((frame1.set 1 255).set 2
        (length / 72057594037927940 &&& Byte)).set 3
        (length / 281474976710656 &&& Byte)).set 4
        (length / 1099511627776 &&& Byte)).set 5
        (length / 4294967296 &&& Byte)).set 6
        (length / 16777216 &&& Byte)).set 7
        (length / 65536 &&& Byte)).set 8
        (length / 256 &&& Byte)).set 9
        (length &&& Byte)
  let data1 := if isClose then writeCloseCodePrefix closeCode data0 else data0
  let frame3 := spliceAt frame2 offset (data1.take (frame2.length - offset))
  { frame := frame3, header := header, offset := offset }

/-- `OutboundFrame.prepare()`: the four `Math.random()` mask bytes are taken
as the `mask` argument; they are copied into the frame at `header` and the
payload region from `offset` on is masked by `FrameMask`. -/
def OutboundFrame.prepareWith (f : OutboundFrame) (mask : List Nat) : List Nat :=
  let frame1 := spliceAt f.frame f.header (mask.take (f.frame.length - f.header))
  FrameMask frame1 mask f.offset

/-- The fake unmasking peer of the round-trip property: it consumes the 4-byte
masking key after the header (as a real server does) and XORs the payload
region with it, yielding the byte stream handed to the inbound decoder. -/
def fakeUnmaskingPeer (wire : List Nat) (header : Nat) (mask : List Nat) : List Nat :=
  wire.take header ++ maskBytes mask 0 (wire.drop (header + 4))

/-! ### Close frame parsing (src/Frames/Frame.js, `CloseFrame`) -/

structure CloseFrame where
  code : Nat
  reason : List Nat
deriving DecidableEq, Repr

/-- The `CloseFrame` constructor at the end of src/Frames/Frame.js:
`code = frame.length < 2 ? 1005 : frame.data.readUInt16BE(0)` and
`reason = frame.data.slice(2)`. -/
def CloseFrame.ofFrame (frame : BaseFrame) : CloseFrame :=
  { code := if frame.length < 2 then 1005 else readUInt16BE frame.data 0,
    reason := frame.data.drop 2 }

/-- The variant in src/Frames/CloseFrame.js:
`code = frame.data.readUInt16BE(0) || 1005` (no length guard; a read past the
end of a Node buffer throws, modeled here by the `getD` default) and the same
`reason`. -/
def CloseFrame.ofFrameAlt (frame : BaseFrame) : CloseFrame :=
  { code := if readUInt16BE frame.data 0 = 0 then 1005 else readUInt16BE frame.data 0,
    reason := frame.data.drop 2 }

/-! ### Close-code validation (WebSocket.validateCloseCode) -/

inductive ValidationResult where
  | valid : ValidationResult
  | invalid : String → ValidationResult
deriving DecidableEq, Repr

/-- `WebSocket.validateCloseCode(code)`; the `isNaN` guard cannot fire for a
natural-number code.  The returned strings are the source's messages;
`ValidationResult.valid` is the source's `return true`. -/
def validateCloseCode (code : Nat) : ValidationResult :=
  if code < 1000 ∨ 5000 ≤ code then
    ValidationResult.invalid ("Out of The Allowed Range - Cannot be below 1000 or above 5000.")
  else if 1000 ≤ code ∧ code < 2000 then
    if 1016 ≤ code then
      ValidationResult.invalid ("1xxx Close Codes are Only Allowed in The Range from 1000 to 1015.")
    else if code = 1004 ∨ code = 1005 ∨ code = 1006 then
      ValidationResult.invalid
        ("These Close Codes can only be Generated Locally and not Sent to The Remote Peer.")
    else ValidationResult.valid
  else if 2000 ≤ code ∧ code < 3000 then
    ValidationResult.invalid
      ("The Close Codes between 2000 and 3000 are reserved by The WebSocket Protocol.")
  else if 3000 ≤ code ∧ code < 5000 then ValidationResult.valid
  else ValidationResult.invalid ("Unknown Close Code.")

/-! ### Handshake validation (WebSocket.validateHandshake) -/

structure ResponseHeaders where
  connection : Option String
  upgrade : Option String
  secWebSocketAccept : Option String

structure Response where
  statusCode : Nat
  headers : Option ResponseHeaders

/-- JavaScript `String.prototype.toLowerCase()` on the ASCII header values
compared by the handshake validator. -/
def jsToLowerCase (s : String) : String := String.mk (s.data.map Char.toLower)

/-- `WebSocket.validateHandshake(response)`.  `sha1base64` stands for the
external `crypto` pipeline `createHash(sha1).update(s).digest(base64)`; the
function under verification only concatenates the stored nonce with
`HeaderConcatNonce`, feeds it through that pipeline and compares the result
byte-for-byte with the `sec-websocket-accept` header.  A missing header
compares unequal (JavaScript `undefined != string`), and string-concatenating
`undefined` prints as "undefined". -/
def validateHandshake (sha1base64 : String → String) (nonceInitial : String)
    (response : Response) : ValidationResult :=
  if response.statusCode ≠ 101 then
    ValidationResult.invalid ("Unexpected WebSocket Server Opening Handshake Status Code - "
      ++ toString response.statusCode ++ " (101 Switching Protocols Expected)")
  else
    match response.headers with
    | none => ValidationResult.invalid ("Missing Headers in The Opening Handshake.")
    | some headers =>
      if headers.connection.map jsToLowerCase ≠ some ("upgrade") then
        ValidationResult.invalid
          ("Expected a \"connection: upgrade\" header in The Opening Handshake.")
      else if headers.upgrade.map jsToLowerCase ≠ some ("websocket") then
        ValidationResult.invalid
          ("Expected a \"upgrade: websocket\" header in The Opening Handshake.")
      else
        let responseExpected := sha1base64 (nonceInitial ++ HeaderConcatNonce)
        let responseActual := headers.secWebSocketAccept
        if responseActual ≠ some responseExpected then
          ValidationResult.invalid ("Expected \"" ++ responseExpected
            ++ "\" as The Response Nonce, But Received \""
            ++ (match responseActual with | some a => a | none => "undefined")
            ++ "\" in The Opening Handshake.")
        else ValidationResult.valid

/-! ### Connection abort (WebSocket.abort / endSocket / performCloseState)

Only the state touched by the abort path is modeled: presence of the TLS
socket and its `ended` flag, presence of the initial request socket, the
status field, the pending close rejector, and counters for the dispatched
`close` / `failure` events and close-future rejections (each dispatch — or,
in async-iterator mode, each rejection of the shared lock — counts one). -/

structure WSState where
  tlsPresent : Bool
  tlsEnded : Bool
  requestPresent : Bool
  status : Nat
  closeRejectPending : Bool
  closeEvents : Nat
  failureEvents : Nat
  closeRejections : Nat
deriving DecidableEq, Repr

/-- `WebSocket.performCloseState()`: destroy and drop the request socket,
mark the status Closed. -/
def WSState.performCloseState (s : WSState) : WSState :=
  { s with requestPresent := false, status := ConnectionStates.Closed }

/-- `WebSocket.endSocket()`: `false` when no TLS socket exists; otherwise run
`performCloseState`, set the socket's `ended` flag, end it, return `true`. -/
def WSState.endSocket (s : WSState) : WSState × Bool :=
  if s.tlsPresent then ({ s.performCloseState with tlsEnded := true }, true)
  else (s, false)

/-- `WebSocket.emitClose(code, reason)` (timer clearing and the default
description lookup do not affect the modeled state). -/
def WSState.emitClose (s : WSState) : WSState :=
  { s with closeEvents := s.closeEvents + 1 }

/-- `WebSocket.emitFailure(reason)`. -/
def WSState.emitFailure (s : WSState) : WSState :=
  { s with failureEvents := s.failureEvents + 1 }

/-- `WebSocket.abort(reason, code)`: return `false` if `sockets.tls?.ended`
is truthy; otherwise end the socket (falling back to `performCloseState` when
none exists), dispatch `close` then `failure`, reject a pending close future,
and return `true`. -/
def WSState.abort (s : WSState) : WSState × Bool :=
  if s.tlsPresent && s.tlsEnded then (s, false)
  else
    let es := s.endSocket
    let s1 := if es.2 then es.1 else es.1.performCloseState
    let s2 := s1.emitClose.emitFailure
    let s3 := if s2.closeRejectPending then
        { s2 with closeRejectPending := false, closeRejections := s2.closeRejections + 1 }
      else s2
    (s3, true)

/-! ### BufferList instances (src/Utilities/BufferList.js, lines 5-8)

The class has no constructor and no instance fields: `head`, `last`, `length`
and `offset` are module-level `let` bindings, so every instance reads and
writes the same `BLState`.  An instance is therefore a value with no data,
and each method takes the module state explicitly. -/

structure BufferList where
deriving DecidableEq, Repr

/-- `new BufferList()`: the implicit constructor touches no module state. -/
def BufferList.new (_u : Unit) : BufferList := {}

/-- The `length` getter, reading the module-level counter. -/
def BufferList.lengthOf (_self : BufferList) (st : BLState) : Nat := st.len

/-- `write` as invoked on an instance: the instance is ignored, the module
state is updated. -/
def BufferList.writeOn (_self : BufferList) (st : BLState) (buf : List Nat) : BLState :=
  st.write buf

/-! ### Flat-queue abstraction of the decoder

For the feed-order-invariance and round-trip proofs the chunked queue is
related to the plain byte sequence it represents.  `pushF` is `push` with the
`BufferList` replaced by that byte sequence; the refinement lemmas below show
`push` computes `pushF` on `BLState.toBytes`. -/

def BaseFrame.stageHeaderF (fr : BaseFrame) (q : List Nat) :
    Except (BaseFrame × List Nat) (BaseFrame × List Nat) :=
  if fr.state = FrameStates.ParsingHeader then
    if q.length ≤ 1 then Except.error (fr, q)
    else
      let hdr := spliceAt fr.frameHeader 0 (q.take 2)
      let q1 := q.drop 2
      let firstByte := hdr.getD 0 0
      let secondByte := hdr.getD 1 0
      let len7 := secondByte &&& BinaryHelpers.Length
      let st := if len7 = 126 then FrameStates.Awaiting16Bit
        else if len7 = 127 then FrameStates.Awaiting64Bit
        else FrameStates.AwaitingPayload
      Except.ok ({ fr with
        frameHeader := hdr,
        firstByte := some firstByte,
        secondByte := some secondByte,
        fin := firstByte &&& BinaryHelpers.Fin != 0,
        opcode := firstByte &&& BinaryHelpers.OPCode,
        length := len7,
        state := st }, q1)
  else Except.ok (fr, q)

def BaseFrame.stageExtF (fr : BaseFrame) (q : List Nat) :
    Except (BaseFrame × List Nat) (BaseFrame × List Nat) :=
  if fr.state = FrameStates.Awaiting16Bit then
    if q.length ≤ 1 then Except.error (fr, q)
    else
      let hdr := spliceAt fr.frameHeader 2 (q.take 2)
      Except.ok ({ fr with
        frameHeader := hdr,
        length := readUInt16BE hdr 2,
        state := FrameStates.AwaitingPayload }, q.drop 2)
  else if fr.state = FrameStates.Awaiting64Bit then
    if q.length ≤ 7 then Except.error (fr, q)
    else
      let hdr := spliceAt fr.frameHeader 2 (q.take 8)
      Except.ok ({ fr with
        frameHeader := hdr,
        length := readUInt32BE hdr 6,
        state := FrameStates.AwaitingPayload }, q.drop 8)
  else Except.ok (fr, q)

def BaseFrame.stagePayloadF (fr : BaseFrame) (q : List Nat) : BaseFrame × List Nat × Bool :=
  if fr.state = FrameStates.AwaitingPayload then
    let fr1 := if fr.length = 0 then
        { fr with data := [], state := FrameStates.Finalized }
      else fr
    if q.length < fr1.length then (fr1, q, false)
    else
      ({ fr1 with data := q.take fr1.length, state := FrameStates.Finalized },
        q.drop fr1.length, true)
  else (fr, q, false)

def BaseFrame.pushF (fr : BaseFrame) (q : List Nat) : BaseFrame × List Nat × Bool :=
  match fr.stageHeaderF q with
  | Except.error (f, b) => (f, b, false)
  | Except.ok (f1, b1) =>
    match f1.stageExtF b1 with
    | Except.error (f, b) => (f, b, false)
    | Except.ok (f2, b2) => f2.stagePayloadF b2

/-- The chunked feeding process over the flat queue. -/
def feedF : BaseFrame → List Nat → List (List Nat) → BaseFrame × List Nat
  | fr, q, [] => (fr, q)
  | fr, q, c :: cs =>
    let p := fr.pushF (q ++ c)
    feedF p.1 p.2.1 cs

/-! ### Byte-queue lemmas -/

theorem BLInv_empty : BLInv BLState.empty := by
  refine ⟨?_, ?_, ?_⟩ <;> simp [BLState.empty, BLState.toBytes, BLState.headOk]

theorem advanceLoop_spec : ∀ (cs : List (List Nat)) (off : Nat),
    off ≤ cs.flatten.length → (∀ c ∈ cs, c ≠ []) →
    (advanceLoop off cs).2.flatten.drop (advanceLoop off cs).1 = cs.flatten.drop off ∧
    (∀ c ∈ (advanceLoop off cs).2, c ≠ []) ∧
    (match (advanceLoop off cs).2 with
     | [] => (advanceLoop off cs).1 = 0
     | c :: _ => (advanceLoop off cs).1 < c.length)
  | [], off, hle, hne => by
    simp [List.flatten] at hle
    simp [advanceLoop, hle]
  | c :: cs, off, hle, hne => by
    simp only [advanceLoop]
    by_cases h : c.length ≤ off
    · rw [if_pos h]
      have hle2 : off - c.length ≤ cs.flatten.length := by
        rw [List.flatten_cons, List.length_append] at hle; omega
      have hne2 : ∀ x ∈ cs, x ≠ [] := fun x hx => hne x (List.mem_cons_of_mem _ hx)
      have ih := advanceLoop_spec cs (off - c.length) hle2 hne2
      refine ⟨?_, ih.2.1, ih.2.2⟩
      rw [ih.1, List.flatten_cons, List.drop_append_eq_append_drop,
        List.drop_eq_nil_of_le h]
      simp
    · rw [if_neg h]
      exact ⟨rfl, hne, by simpa using Nat.lt_of_not_le h⟩

theorem BLState.toBytes_eq (bl : BLState) (hoff : bl.headOk) :
    bl.toBytes = bl.chunks.flatten.drop bl.offset := by
  unfold BLState.headOk at hoff
  unfold BLState.toBytes
  match h : bl.chunks with
  | [] => simp
  | c :: cs =>
    rw [h] at hoff
    rw [List.flatten_cons, List.drop_append_of_le_length (Nat.le_of_lt hoff)]

theorem BLState.offset_le (bl : BLState) (hoff : bl.headOk) :
    bl.offset ≤ bl.chunks.flatten.length := by
  unfold BLState.headOk at hoff
  match h : bl.chunks with
  | [] => rw [h] at hoff; simp [hoff]
  | c :: cs =>
    rw [h] at hoff
    simp only [List.flatten_cons, List.length_append]
    omega

theorem BLState.advance_spec (bl : BLState) (n : Nat) (hInv : BLInv bl) (hn : n ≤ bl.len) :
    BLInv (bl.advance n) ∧ (bl.advance n).toBytes = bl.toBytes.drop n ∧
    (bl.advance n).len = bl.len - n := by
  obtain ⟨hne, hoff, hlen⟩ := hInv
  have htb := bl.toBytes_eq hoff
  have hofflen := bl.offset_le hoff
  have hlen2 : bl.toBytes.length = bl.chunks.flatten.length - bl.offset := by
    rw [htb, List.length_drop]
  have hbound : bl.offset + n ≤ bl.chunks.flatten.length := by omega
  have hs := advanceLoop_spec bl.chunks (bl.offset + n) hbound hne
  have hlen3 : (bl.advance n).len = bl.len - n := rfl
  have hrepr : bl.advance n =
      ⟨(advanceLoop (bl.offset + n) bl.chunks).2, (advanceLoop (bl.offset + n) bl.chunks).1,
        bl.len - n⟩ := rfl
  have hok : (bl.advance n).headOk := by
    rw [hrepr]
    unfold BLState.headOk
    exact hs.2.2
  have htb2 : (bl.advance n).toBytes = bl.chunks.flatten.drop (bl.offset + n) := by
    rw [(bl.advance n).toBytes_eq hok, hrepr]
    exact hs.1
  have htb3 : (bl.advance n).toBytes = bl.toBytes.drop n := by
    rw [htb2, htb, List.drop_drop]
  have hcs : ∀ c ∈ (bl.advance n).chunks, c ≠ [] := by
    rw [hrepr]; exact hs.2.1
  refine ⟨⟨hcs, hok, ?_⟩, htb3, hlen3⟩
  rw [htb3, hlen3]
  simp only [List.length_drop]
  omega

theorem BLState.write_spec (bl : BLState) (buf : List Nat) (hInv : BLInv bl) (hne : buf ≠ []) :
    BLInv (bl.write buf) ∧ (bl.write buf).toBytes = bl.toBytes ++ buf ∧
    (bl.write buf).len = bl.len + buf.length := by
  obtain ⟨hcs, hoff, hlen⟩ := hInv
  unfold BLState.headOk at hoff
  have htb : (bl.write buf).toBytes = bl.toBytes ++ buf := by
    unfold BLState.write BLState.toBytes
    match h : bl.chunks with
    | [] =>
      rw [h] at hoff
      simp [hoff]
    | c :: cs => simp
  have hlenw : (bl.write buf).len = bl.len + buf.length := rfl
  refine ⟨⟨?_, ?_, ?_⟩, htb, hlenw⟩
  · intro c hc
    unfold BLState.write at hc
    rcases List.mem_append.mp hc with h | h
    · exact hcs c h
    · simp at h; subst h; exact hne
  · unfold BLState.headOk BLState.write
    match h : bl.chunks with
    | [] =>
      rw [h] at hoff
      simp only [List.nil_append]
      rw [hoff]
      exact List.length_pos.mpr hne
    | c :: cs =>
      rw [h] at hoff
      simpa using hoff
  · rw [htb, hlenw]
    simp only [List.length_append]
    omega

theorem bufCopy_spec (c big : List Nat) (t m : Nat) (hm : m ≤ c.length)
    (hfit : t + m ≤ big.length) :
    bufCopy c big t 0 m = big.take t ++ c.take m ++ big.drop (t + m) ∧
    (bufCopy c big t 0 m).length = big.length := by
  have hlen : (c.take m).length = m := by simp [Nat.min_eq_left hm]
  have hseg : ((c.drop 0).take (m - 0)).take (big.length - t) = c.take m := by
    simp only [List.drop_zero, Nat.sub_zero]
    rw [List.take_take]
    congr 1
    omega
  constructor
  · simp only [bufCopy]
    rw [hseg, hlen]
  · simp only [bufCopy]
    rw [hseg, hlen]
    simp only [List.length_append, List.length_take, List.length_drop]
    omega

theorem joinLoop_ge (n t : Nat) : ∀ (bs : List (List Nat)) (big : List Nat) (ix : Nat),
    n ≤ ix → joinLoop 0 n t big ix bs = big
  | [], _big, _ix, _h => rfl
  | c :: cs, big, ix, h => by
    simp only [joinLoop]
    have hcond : ¬(0 < ix + c.length ∧ ix < n) := by omega
    by_cases hstop : n < ix + c.length
    · rw [if_pos hstop, if_neg hcond]
    · rw [if_neg hstop, if_neg hcond]
      exact joinLoop_ge n t cs big (ix + c.length) (by omega)

theorem joinLoop_spec (n t : Nat) : ∀ (bs : List (List Nat)) (ix : Nat) (big : List Nat),
    ix < n → n - ix ≤ bs.flatten.length → t + n ≤ big.length →
    joinLoop 0 n t big ix bs =
      big.take (t + ix) ++ bs.flatten.take (n - ix) ++ big.drop (t + n)
  | [], ix, big, hix, hflat, hbig => by
    simp only [List.flatten_nil, List.length_nil] at hflat
    omega
  | c :: cs, ix, big, hix, hflat, hbig => by
    simp only [joinLoop]
    have e1 : (0 : Nat) - ix = 0 := by omega
    have e2 : max t (t + ix - 0) = t + ix := by omega
    by_cases hstop : n < ix + c.length
    · rw [if_pos hstop]
      have hc : 0 < ix + c.length := by omega
      rw [if_pos (show 0 < ix + c.length ∧ ix < n from ⟨hc, hix⟩)]
      rw [e1, e2]
      have hm : min c.length (n - ix) ≤ c.length := Nat.min_le_left _ _
      have hfit : (t + ix) + min c.length (n - ix) ≤ big.length := by omega
      rw [(bufCopy_spec c big (t + ix) (min c.length (n - ix)) hm hfit).1]
      have hm2 : min c.length (n - ix) = n - ix := by omega
      rw [hm2]
      have htk : (c ++ cs.flatten).take (n - ix) = c.take (n - ix) := by
        rw [List.take_append_of_le_length (by omega)]
      rw [List.flatten_cons, htk, show t + ix + (n - ix) = t + n by omega]
    · rw [if_neg hstop]
      by_cases hc : 0 < ix + c.length
      · rw [if_pos (show 0 < ix + c.length ∧ ix < n from ⟨hc, hix⟩)]
        rw [e1, e2]
        have hcle : ix + c.length ≤ n := by omega
        have hm : min c.length (n - ix) ≤ c.length := Nat.min_le_left _ _
        have hfit : (t + ix) + min c.length (n - ix) ≤ big.length := by omega
        rw [(bufCopy_spec c big (t + ix) (min c.length (n - ix)) hm hfit).1]
        have hm2 : min c.length (n - ix) = c.length := by omega
        rw [hm2, List.take_length]
        by_cases hEq : ix + c.length = n
        · rw [joinLoop_ge n t cs _ (ix + c.length) (by omega)]
          rw [List.flatten_cons]
          have htk : (c ++ cs.flatten).take (n - ix) = c := by
            rw [show n - ix = c.length + (n - ix - c.length) by omega,
              List.take_append, show n - ix - c.length = 0 by omega]
            simp
          rw [htk, show t + ix + c.length = t + n by omega]
        · have hlt : ix + c.length < n := by omega
          have hA : (big.take (t + ix)).length = t + ix := by
            simp [Nat.min_eq_left (show t + ix ≤ big.length by omega)]
          set big1 := big.take (t + ix) ++ c ++ big.drop (t + ix + c.length) with hbig1
          have hbig1len : big1.length = big.length := by
            rw [hbig1]
            simp only [List.length_append, List.length_take, List.length_drop]
            omega
          have ih := joinLoop_spec n t cs (ix + c.length) big1 (by omega)
            (by rw [List.flatten_cons, List.length_append] at hflat; omega)
            (by omega)
          rw [ih]
          have htake1 : big1.take (t + (ix + c.length)) = big.take (t + ix) ++ c := by
            rw [hbig1, List.append_assoc]
            rw [show t + (ix + c.length) = (big.take (t + ix)).length + c.length by rw [hA]; omega]
            rw [List.take_append]
            rw [List.take_append_of_le_length (le_refl _), List.take_length]
          have hdrop1 : big1.drop (t + n) = big.drop (t + n) := by
            rw [hbig1, List.append_assoc]
            rw [show t + n = (big.take (t + ix)).length + (c.length + (n - ix - c.length)) by
              rw [hA]; omega]
            rw [List.drop_append]
            rw [List.drop_append_eq_append_drop, List.drop_eq_nil_of_le (by omega)]
            rw [List.drop_drop]
            simp only [List.nil_append]
            congr 1
            omega
          rw [htake1, hdrop1]
          rw [List.flatten_cons]
          have htk2 : (c ++ cs.flatten).take (n - ix) =
              c ++ cs.flatten.take (n - (ix + c.length)) := by
            rw [show n - ix = c.length + (n - (ix + c.length)) by omega, List.take_append]
          rw [htk2]
          simp only [List.append_assoc]
      · rw [if_neg (by omega : ¬(0 < ix + c.length ∧ ix < n))]
        have hcnil : c = [] := by
          have : c.length = 0 := by omega
          exact List.length_eq_zero.mp this
        subst hcnil
        simp only [List.length_nil, Nat.add_zero, List.flatten_cons, List.nil_append]
        exact joinLoop_spec n t cs ix big hix (by simpa using hflat) hbig

theorem BLState.len_le_flatten (bl : BLState) (hInv : BLInv bl) :
    bl.len = bl.toBytes.length := hInv.2.2

theorem BLState.take_spec (bl : BLState) (n : Nat) (hInv : BLInv bl) (hn : n ≤ bl.len) :
    bl.take n = bl.toBytes.take n := by
  obtain ⟨hne, hoff, hlen⟩ := hInv
  unfold BLState.take BLState.join
  match h : bl.chunks with
  | [] =>
    have : bl.toBytes = [] := by unfold BLState.toBytes; rw [h]
    rw [this]
    simp
  | c :: cs =>
    have hoff2 : bl.offset < c.length := by
      unfold BLState.headOk at hoff; rw [h] at hoff; exact hoff
    dsimp only
    rw [if_neg (by omega)]
    have hflat : ((c.drop bl.offset) :: cs).flatten = bl.toBytes := by
      simp [BLState.toBytes, h]
    rcases Nat.eq_zero_or_pos n with hz | hpos
    · subst hz
      rw [joinLoop_ge 0 0 _ _ 0 (le_refl 0)]
      simp
    · rw [joinLoop_spec n 0 _ 0 _ hpos
        (by rw [hflat]; omega) (by simp)]
      rw [hflat]
      simp

theorem BLState.joinInto_spec (bl : BLState) (tgt : List Nat) (t n : Nat) (hInv : BLInv bl)
    (hn : n ≤ bl.len) (ht : t + n ≤ tgt.length) :
    bl.joinInto tgt t 0 n = tgt.take t ++ bl.toBytes.take n ++ tgt.drop (t + n) := by
  obtain ⟨hne, hoff, hlen⟩ := hInv
  unfold BLState.joinInto
  match h : bl.chunks with
  | [] =>
    have htb : bl.toBytes = [] := by simp [BLState.toBytes, h]
    have hn0 : n = 0 := by
      rw [hlen, htb] at hn; simpa using hn
    subst hn0
    rw [htb]
    simp
  | c :: cs =>
    have hoff2 : bl.offset < c.length := by
      unfold BLState.headOk at hoff; rw [h] at hoff; exact hoff
    dsimp only
    rw [if_neg (by omega), if_neg (by omega)]
    have hflat : ((c.drop bl.offset) :: cs).flatten = bl.toBytes := by
      simp [BLState.toBytes, h]
    rcases Nat.eq_zero_or_pos n with hz | hpos
    · subst hz
      rw [joinLoop_ge 0 t _ _ 0 (le_refl 0)]
      simp
    · rw [joinLoop_spec n t _ 0 _ hpos (by rw [hflat]; omega) (by omega)]
      rw [hflat]
      simp

theorem stageHeader_refine (fr : BaseFrame) (bl : BLState) (hInv : BLInv bl)
    (hH : 10 ≤ fr.frameHeader.length) :
    (fr.stageHeader bl = Except.error (fr, bl) ∧
      fr.stageHeaderF bl.toBytes = Except.error (fr, bl.toBytes)) ∨
    (∃ f b, fr.stageHeader bl = Except.ok (f, b) ∧
      fr.stageHeaderF bl.toBytes = Except.ok (f, b.toBytes) ∧ BLInv b ∧
      f.frameHeader.length = fr.frameHeader.length) := by
  have hlenq : bl.toBytes.length = bl.len := (hInv.2.2).symm
  simp only [BaseFrame.stageHeader, BaseFrame.stageHeaderF, hlenq]
  by_cases hs : fr.state = FrameStates.ParsingHeader
  · simp only [if_pos hs]
    by_cases hg : bl.len ≤ 1
    · simp only [if_pos hg]
      left; exact ⟨trivial, trivial⟩
    · simp only [if_neg hg]
      have h2 : 2 ≤ bl.len := by omega
      have hji := bl.joinInto_spec fr.frameHeader 0 2 hInv h2 (by omega)
      have hl2 : (bl.toBytes.take 2).length = 2 := by
        rw [List.length_take]; omega
      have hsp : spliceAt fr.frameHeader 0 (bl.toBytes.take 2) =
          bl.joinInto fr.frameHeader 0 0 2 := by
        rw [hji]
        simp only [spliceAt, hl2]
      have hadv := bl.advance_spec 2 hInv h2
      rw [hsp, ← hadv.2.1]
      right
      refine ⟨_, bl.advance 2, rfl, rfl, hadv.1, ?_⟩
      rw [hji]
      simp only [List.length_append, List.length_take, List.length_drop]
      omega
  · simp only [if_neg hs]
    right
    exact ⟨fr, bl, rfl, rfl, hInv, rfl⟩

theorem stageExt_refine (fr : BaseFrame) (bl : BLState) (hInv : BLInv bl)
    (hH : 10 ≤ fr.frameHeader.length) :
    (fr.stageExt bl = Except.error (fr, bl) ∧
      fr.stageExtF bl.toBytes = Except.error (fr, bl.toBytes)) ∨
    (∃ f b, fr.stageExt bl = Except.ok (f, b) ∧
      fr.stageExtF bl.toBytes = Except.ok (f, b.toBytes) ∧ BLInv b ∧
      f.frameHeader.length = fr.frameHeader.length) := by
  have hlenq : bl.toBytes.length = bl.len := (hInv.2.2).symm
  simp only [BaseFrame.stageExt, BaseFrame.stageExtF, hlenq]
  by_cases hs : fr.state = FrameStates.Awaiting16Bit
  · simp only [if_pos hs]
    by_cases hg : bl.len ≤ 1
    · simp only [if_pos hg]
      left; exact ⟨trivial, trivial⟩
    · simp only [if_neg hg]
      have h2 : 2 ≤ bl.len := by omega
      have hji := bl.joinInto_spec fr.frameHeader 2 2 hInv h2 (by omega)
      have hl2 : (bl.toBytes.take 2).length = 2 := by
        rw [List.length_take]; omega
      have hsp : spliceAt fr.frameHeader 2 (bl.toBytes.take 2) =
          bl.joinInto fr.frameHeader 2 0 2 := by
        rw [hji]
        simp only [spliceAt, hl2]
      have hadv := bl.advance_spec 2 hInv h2
      rw [hsp, ← hadv.2.1]
      right
      refine ⟨_, bl.advance 2, rfl, rfl, hadv.1, ?_⟩
      rw [hji]
      simp only [List.length_append, List.length_take, List.length_drop]
      omega
  · simp only [if_neg hs]
    by_cases hs2 : fr.state = FrameStates.Awaiting64Bit
    · simp only [if_pos hs2]
      by_cases hg : bl.len ≤ 7
      · simp only [if_pos hg]
        left; exact ⟨trivial, trivial⟩
      · simp only [if_neg hg]
        have h8 : 8 ≤ bl.len := by omega
        have hji := bl.joinInto_spec fr.frameHeader 2 8 hInv h8 (by omega)
        have hl8 : (bl.toBytes.take 8).length = 8 := by
          rw [List.length_take]; omega
        have hsp : spliceAt fr.frameHeader 2 (bl.toBytes.take 8) =
            bl.joinInto fr.frameHeader 2 0 8 := by
          rw [hji]
          simp only [spliceAt, hl8]
        have hadv := bl.advance_spec 8 hInv h8
        rw [hsp, ← hadv.2.1]
        right
        refine ⟨_, bl.advance 8, rfl, rfl, hadv.1, ?_⟩
        rw [hji]
        simp only [List.length_append, List.length_take, List.length_drop]
        omega
    · simp only [if_neg hs2]
      right
      exact ⟨fr, bl, rfl, rfl, hInv, rfl⟩

theorem stagePayload_refine (fr : BaseFrame) (bl : BLState) (hInv : BLInv bl) :
    (fr.stagePayload bl).1 = (fr.stagePayloadF bl.toBytes).1 ∧
    (fr.stagePayload bl).2.1.toBytes = (fr.stagePayloadF bl.toBytes).2.1 ∧
    (fr.stagePayload bl).2.2 = (fr.stagePayloadF bl.toBytes).2.2 ∧
    BLInv (fr.stagePayload bl).2.1 ∧
    (fr.stagePayload bl).1.frameHeader = fr.frameHeader := by
  have hlenq : bl.toBytes.length = bl.len := (hInv.2.2).symm
  simp only [BaseFrame.stagePayload, BaseFrame.stagePayloadF, hlenq]
  by_cases hs : fr.state = FrameStates.AwaitingPayload
  · simp only [if_pos hs]
    by_cases hz : fr.length = 0
    · simp only [hz, if_true]
      simp only [if_neg (by omega : ¬bl.len < 0)]
      have htk := bl.take_spec 0 hInv (by omega)
      have hadv := bl.advance_spec 0 hInv (by omega)
      refine ⟨?_, ?_, ?_, ?_, ?_⟩ <;>
        first
          | trivial
          | exact hadv.1
          | (rw [htk])
          | (rw [hadv.2.1])
    · simp only [if_neg hz]
      by_cases hg : bl.len < fr.length
      · simp only [if_pos hg]
        refine ⟨?_, ?_, ?_, ?_, ?_⟩ <;> first | trivial | exact hInv
      · simp only [if_neg hg]
        have hle : fr.length ≤ bl.len := by omega
        have htk := bl.take_spec fr.length hInv hle
        have hadv := bl.advance_spec fr.length hInv hle
        refine ⟨?_, ?_, ?_, ?_, ?_⟩ <;>
          first
            | trivial
            | exact hadv.1
            | (rw [htk])
            | (rw [hadv.2.1])
  · simp only [if_neg hs]
    refine ⟨?_, ?_, ?_, ?_, ?_⟩ <;> first | trivial | exact hInv

theorem push_refine (fr : BaseFrame) (bl : BLState) (hInv : BLInv bl)
    (hH : 10 ≤ fr.frameHeader.length) :
    (fr.push bl).1 = (fr.pushF bl.toBytes).1 ∧
    (fr.push bl).2.1.toBytes = (fr.pushF bl.toBytes).2.1 ∧
    (fr.push bl).2.2 = (fr.pushF bl.toBytes).2.2 ∧
    BLInv (fr.push bl).2.1 ∧
    10 ≤ (fr.push bl).1.frameHeader.length := by
  unfold BaseFrame.push BaseFrame.pushF
  rcases stageHeader_refine fr bl hInv hH with ⟨he, heF⟩ | ⟨f1, b1, ho, hoF, hInv1, hlen1⟩
  · rw [he, heF]
    dsimp only
    exact ⟨rfl, rfl, rfl, hInv, hH⟩
  · rw [ho, hoF]
    dsimp only
    have hH1 : 10 ≤ f1.frameHeader.length := by omega
    rcases stageExt_refine f1 b1 hInv1 hH1 with ⟨he2, he2F⟩ | ⟨f2, b2, ho2, ho2F, hInv2, hlen2⟩
    · rw [he2, he2F]
      dsimp only
      exact ⟨rfl, rfl, rfl, hInv1, hH1⟩
    · rw [ho2, ho2F]
      dsimp only
      have hp := stagePayload_refine f2 b2 hInv2
      refine ⟨hp.1, hp.2.1, hp.2.2.1, hp.2.2.2.1, ?_⟩
      rw [hp.2.2.2.2]
      omega

theorem stageHeaderF_error {fr : BaseFrame} {q : List Nat} {p : BaseFrame × List Nat}
    (h : fr.stageHeaderF q = Except.error p) :
    p = (fr, q) ∧ fr.state = FrameStates.ParsingHeader ∧ q.length ≤ 1 := by
  unfold BaseFrame.stageHeaderF at h
  by_cases hs : fr.state = FrameStates.ParsingHeader
  · rw [if_pos hs] at h
    by_cases hg : q.length ≤ 1
    · rw [if_pos hg] at h
      exact ⟨(Except.error.injEq _ _ ▸ h).symm ▸ rfl, hs, hg⟩
    · rw [if_neg hg] at h
      exact absurd h (by simp)
  · rw [if_neg hs] at h
    exact absurd h (by simp)

theorem stageHeaderF_skip {fr : BaseFrame} (q : List Nat)
    (h : fr.state ≠ FrameStates.ParsingHeader) :
    fr.stageHeaderF q = Except.ok (fr, q) := by
  unfold BaseFrame.stageHeaderF
  rw [if_neg h]

theorem stageExtF_error {fr : BaseFrame} {q : List Nat} {p : BaseFrame × List Nat}
    (h : fr.stageExtF q = Except.error p) :
    p = (fr, q) ∧ (fr.state = FrameStates.Awaiting16Bit ∨ fr.state = FrameStates.Awaiting64Bit) := by
  unfold BaseFrame.stageExtF at h
  by_cases hs : fr.state = FrameStates.Awaiting16Bit
  · rw [if_pos hs] at h
    by_cases hg : q.length ≤ 1
    · rw [if_pos hg] at h
      simp only [Except.error.injEq] at h
      exact ⟨h.symm, Or.inl hs⟩
    · rw [if_neg hg] at h
      exact absurd h (by simp)
  · rw [if_neg hs] at h
    by_cases hs2 : fr.state = FrameStates.Awaiting64Bit
    · rw [if_pos hs2] at h
      by_cases hg : q.length ≤ 7
      · rw [if_pos hg] at h
        simp only [Except.error.injEq] at h
        exact ⟨h.symm, Or.inr hs2⟩
      · rw [if_neg hg] at h
        exact absurd h (by simp)
    · rw [if_neg hs2] at h
      exact absurd h (by simp)

theorem stageExtF_skip {fr : BaseFrame} (q : List Nat)
    (h16 : fr.state ≠ FrameStates.Awaiting16Bit) (h64 : fr.state ≠ FrameStates.Awaiting64Bit) :
    fr.stageExtF q = Except.ok (fr, q) := by
  unfold BaseFrame.stageExtF
  rw [if_neg h16, if_neg h64]

theorem stageHeaderF_ok_state {fr f1 : BaseFrame} {q q1 : List Nat}
    (h : fr.stageHeaderF q = Except.ok (f1, q1)) :
    f1.state ≠ FrameStates.ParsingHeader := by
  unfold BaseFrame.stageHeaderF at h
  by_cases hs : fr.state = FrameStates.ParsingHeader
  · rw [if_pos hs] at h
    by_cases hg : q.length ≤ 1
    · rw [if_pos hg] at h; exact absurd h (by simp)
    · rw [if_neg hg] at h
      simp only [Except.ok.injEq, Prod.mk.injEq] at h
      have := h.1
      rw [← this]
      by_cases h126 : (spliceAt fr.frameHeader 0 (q.take 2)).getD 1 0 &&& BinaryHelpers.Length = 126
      · simp only [if_pos h126]
        simp [FrameStates.Awaiting16Bit, FrameStates.ParsingHeader]
      · simp only [if_neg h126]
        by_cases h127 : (spliceAt fr.frameHeader 0 (q.take 2)).getD 1 0 &&& BinaryHelpers.Length = 127
        · simp only [if_pos h127]
          simp [FrameStates.Awaiting64Bit, FrameStates.ParsingHeader]
        · simp only [if_neg h127]
          simp [FrameStates.AwaitingPayload, FrameStates.ParsingHeader]
  · rw [if_neg hs] at h
    simp only [Except.ok.injEq, Prod.mk.injEq] at h
    rw [h.1] at hs
    exact hs

theorem stageExtF_ok_state {fr f1 : BaseFrame} {q q1 : List Nat}
    (h : fr.stageExtF q = Except.ok (f1, q1)) (h1 : fr.state ≠ FrameStates.ParsingHeader) :
    f1.state ≠ FrameStates.ParsingHeader ∧ f1.state ≠ FrameStates.Awaiting16Bit ∧
    f1.state ≠ FrameStates.Awaiting64Bit := by
  unfold BaseFrame.stageExtF at h
  by_cases hs : fr.state = FrameStates.Awaiting16Bit
  · rw [if_pos hs] at h
    by_cases hg : q.length ≤ 1
    · rw [if_pos hg] at h; exact absurd h (by simp)
    · rw [if_neg hg] at h
      simp only [Except.ok.injEq, Prod.mk.injEq] at h
      rw [← h.1]
      refine ⟨?_, ?_, ?_⟩ <;>
        simp [FrameStates.AwaitingPayload, FrameStates.ParsingHeader,
          FrameStates.Awaiting16Bit, FrameStates.Awaiting64Bit]
  · rw [if_neg hs] at h
    by_cases hs2 : fr.state = FrameStates.Awaiting64Bit
    · rw [if_pos hs2] at h
      by_cases hg : q.length ≤ 7
      · rw [if_pos hg] at h; exact absurd h (by simp)
      · rw [if_neg hg] at h
        simp only [Except.ok.injEq, Prod.mk.injEq] at h
        rw [← h.1]
        refine ⟨?_, ?_, ?_⟩ <;>
          simp [FrameStates.AwaitingPayload, FrameStates.ParsingHeader,
            FrameStates.Awaiting16Bit, FrameStates.Awaiting64Bit]
    · rw [if_neg hs2] at h
      simp only [Except.ok.injEq, Prod.mk.injEq] at h
      rw [← h.1]
      exact ⟨h1, hs, hs2⟩

theorem stageHeaderF_mono {fr f1 : BaseFrame} {q q1 : List Nat}
    (h : fr.stageHeaderF q = Except.ok (f1, q1)) (e : List Nat) :
    fr.stageHeaderF (q ++ e) = Except.ok (f1, q1 ++ e) := by
  unfold BaseFrame.stageHeaderF at h ⊢
  by_cases hs : fr.state = FrameStates.ParsingHeader
  · rw [if_pos hs] at h ⊢
    by_cases hg : q.length ≤ 1
    · rw [if_pos hg] at h; exact absurd h (by simp)
    · rw [if_neg hg] at h
      rw [if_neg (by simp only [List.length_append]; omega)]
      simp only [Except.ok.injEq, Prod.mk.injEq] at h
      rw [List.take_append_of_le_length (by omega),
        List.drop_append_of_le_length (by omega)]
      rw [← h.1, ← h.2]
  · rw [if_neg hs] at h ⊢
    simp only [Except.ok.injEq, Prod.mk.injEq] at h
    rw [← h.1, ← h.2]

theorem stageExtF_mono {fr f1 : BaseFrame} {q q1 : List Nat}
    (h : fr.stageExtF q = Except.ok (f1, q1)) (e : List Nat) :
    fr.stageExtF (q ++ e) = Except.ok (f1, q1 ++ e) := by
  unfold BaseFrame.stageExtF at h ⊢
  by_cases hs : fr.state = FrameStates.Awaiting16Bit
  · rw [if_pos hs] at h ⊢
    by_cases hg : q.length ≤ 1
    · rw [if_pos hg] at h; exact absurd h (by simp)
    · rw [if_neg hg] at h
      rw [if_neg (by simp only [List.length_append]; omega)]
      simp only [Except.ok.injEq, Prod.mk.injEq] at h
      rw [List.take_append_of_le_length (by omega),
        List.drop_append_of_le_length (by omega)]
      rw [← h.1, ← h.2]
  · rw [if_neg hs] at h ⊢
    by_cases hs2 : fr.state = FrameStates.Awaiting64Bit
    · rw [if_pos hs2] at h ⊢
      by_cases hg : q.length ≤ 7
      · rw [if_pos hg] at h; exact absurd h (by simp)
      · rw [if_neg hg] at h
        rw [if_neg (by simp only [List.length_append]; omega)]
        simp only [Except.ok.injEq, Prod.mk.injEq] at h
        rw [List.take_append_of_le_length (by omega),
          List.drop_append_of_le_length (by omega)]
        rw [← h.1, ← h.2]
    · rw [if_neg hs2] at h ⊢
      simp only [Except.ok.injEq, Prod.mk.injEq] at h
      rw [← h.1, ← h.2]

theorem stagePayloadF_false {fr f1 : BaseFrame} {q q1 : List Nat}
    (h : fr.stagePayloadF q = (f1, q1, false)) : f1 = fr ∧ q1 = q := by
  unfold BaseFrame.stagePayloadF at h
  by_cases hs : fr.state = FrameStates.AwaitingPayload
  · rw [if_pos hs] at h
    by_cases hz : fr.length = 0
    · simp only [hz, if_true] at h
      rw [if_neg (by omega)] at h
      exact absurd h (by simp)
    · simp only [if_neg hz] at h
      by_cases hg : q.length < fr.length
      · rw [if_pos hg] at h
        simp only [Prod.mk.injEq] at h
        exact ⟨h.1.symm, h.2.1.symm⟩
      · rw [if_neg hg] at h
        exact absurd h (by simp)
  · rw [if_neg hs] at h
    simp only [Prod.mk.injEq] at h
    exact ⟨h.1.symm, h.2.1.symm⟩

theorem stagePayloadF_true_mono {fr f1 : BaseFrame} {q q1 : List Nat}
    (h : fr.stagePayloadF q = (f1, q1, true)) (e : List Nat) :
    fr.stagePayloadF (q ++ e) = (f1, q1 ++ e, true) := by
  unfold BaseFrame.stagePayloadF at h ⊢
  by_cases hs : fr.state = FrameStates.AwaitingPayload
  · rw [if_pos hs] at h ⊢
    by_cases hz : fr.length = 0
    · simp only [hz, if_true] at h ⊢
      rw [if_neg (by omega)] at h
      rw [if_neg (by omega)]
      simp only [Prod.mk.injEq] at h
      simp only [List.take_zero, List.drop_zero] at h ⊢
      rw [← h.1, ← h.2.1]
    · simp only [if_neg hz] at h ⊢
      by_cases hg : q.length < fr.length
      · rw [if_pos hg] at h
        exact absurd h (by simp)
      · rw [if_neg hg] at h
        rw [if_neg (by simp only [List.length_append]; omega)]
        simp only [Prod.mk.injEq] at h
        rw [List.take_append_of_le_length (by omega),
          List.drop_append_of_le_length (by omega)]
        rw [← h.1, ← h.2.1]
  · rw [if_neg hs] at h
    exact absurd h (by simp)

theorem stagePayloadF_true_state {fr f1 : BaseFrame} {q q1 : List Nat}
    (h : fr.stagePayloadF q = (f1, q1, true)) : f1.state = FrameStates.Finalized := by
  unfold BaseFrame.stagePayloadF at h
  by_cases hs : fr.state = FrameStates.AwaitingPayload
  · rw [if_pos hs] at h
    by_cases hz : fr.length = 0
    · simp only [hz, if_true] at h
      rw [if_neg (by omega)] at h
      simp only [Prod.mk.injEq] at h
      rw [← h.1]
    · simp only [if_neg hz] at h
      by_cases hg : q.length < fr.length
      · rw [if_pos hg] at h
        exact absurd h (by simp)
      · rw [if_neg hg] at h
        simp only [Prod.mk.injEq] at h
        rw [← h.1]
  · rw [if_neg hs] at h
    exact absurd h (by simp)

theorem pushF_skip {fr : BaseFrame} (q : List Nat)
    (h1 : fr.state ≠ FrameStates.ParsingHeader) (h2 : fr.state ≠ FrameStates.Awaiting16Bit)
    (h3 : fr.state ≠ FrameStates.Awaiting64Bit) :
    fr.pushF q = fr.stagePayloadF q := by
  unfold BaseFrame.pushF
  rw [stageHeaderF_skip q h1]
  dsimp only
  rw [stageExtF_skip q h2 h3]

theorem pushF_false_resume {fr f1 : BaseFrame} {q q1 : List Nat}
    (h : fr.pushF q = (f1, q1, false)) (e : List Nat) :
    f1.pushF (q1 ++ e) = fr.pushF (q ++ e) := by
  unfold BaseFrame.pushF at h
  rcases hh : fr.stageHeaderF q with p | ⟨fh, qh⟩
  · rw [hh] at h
    obtain ⟨hp, hst, hlen⟩ := stageHeaderF_error hh
    subst hp
    simp only [Prod.mk.injEq] at h
    obtain ⟨h1, h2, _⟩ := h
    subst h1; subst h2
    rfl
  · rw [hh] at h
    dsimp only at h
    rcases he : fh.stageExtF qh with p | ⟨f2, q2⟩
    · rw [he] at h
      obtain ⟨hp, hst⟩ := stageExtF_error he
      subst hp
      simp only [Prod.mk.injEq] at h
      obtain ⟨h1, h2, _⟩ := h
      subst h1
      subst h2
      have hS : fh.state ≠ FrameStates.ParsingHeader := stageHeaderF_ok_state hh
      unfold BaseFrame.pushF
      rw [stageHeaderF_skip (qh ++ e) hS]
      rw [stageHeaderF_mono hh e]
    · rw [he] at h
      dsimp only at h
      obtain ⟨hf, hq⟩ := stagePayloadF_false h
      subst hf; subst hq
      have hS1 : fh.state ≠ FrameStates.ParsingHeader := stageHeaderF_ok_state hh
      obtain ⟨hA, hB, hC⟩ := stageExtF_ok_state he hS1
      rw [pushF_skip (q1 ++ e) hA hB hC]
      unfold BaseFrame.pushF
      rw [stageHeaderF_mono hh e]
      dsimp only
      rw [stageExtF_mono he e]

theorem pushF_true_mono {fr f1 : BaseFrame} {q q1 : List Nat}
    (h : fr.pushF q = (f1, q1, true)) (e : List Nat) :
    fr.pushF (q ++ e) = (f1, q1 ++ e, true) := by
  unfold BaseFrame.pushF at h
  rcases hh : fr.stageHeaderF q with p | ⟨fh, qh⟩
  · rw [hh] at h
    obtain ⟨hp, _, _⟩ := stageHeaderF_error hh
    subst hp
    simp only [Prod.mk.injEq] at h
    exact absurd h.2.2 (by simp)
  · rw [hh] at h
    dsimp only at h
    rcases he : fh.stageExtF qh with p | ⟨f2, q2⟩
    · rw [he] at h
      obtain ⟨hp, _⟩ := stageExtF_error he
      subst hp
      simp only [Prod.mk.injEq] at h
      exact absurd h.2.2 (by simp)
    · rw [he] at h
      dsimp only at h
      unfold BaseFrame.pushF
      rw [stageHeaderF_mono hh e]
      dsimp only
      rw [stageExtF_mono he e]
      dsimp only
      exact stagePayloadF_true_mono h e

theorem pushF_true_state {fr f1 : BaseFrame} {q q1 : List Nat}
    (h : fr.pushF q = (f1, q1, true)) : f1.state = FrameStates.Finalized := by
  unfold BaseFrame.pushF at h
  rcases hh : fr.stageHeaderF q with p | ⟨fh, qh⟩
  · rw [hh] at h
    obtain ⟨hp, _, _⟩ := stageHeaderF_error hh
    subst hp
    simp only [Prod.mk.injEq] at h
    exact absurd h.2.2 (by simp)
  · rw [hh] at h
    dsimp only at h
    rcases he : fh.stageExtF qh with p | ⟨f2, q2⟩
    · rw [he] at h
      obtain ⟨hp, _⟩ := stageExtF_error he
      subst hp
      simp only [Prod.mk.injEq] at h
      exact absurd h.2.2 (by simp)
    · rw [he] at h
      dsimp only at h
      exact stagePayloadF_true_state h

theorem pushF_saturated {fr f1 : BaseFrame} {q q1 : List Nat}
    (h : fr.pushF q = (f1, q1, false)) : f1.pushF q1 = (f1, q1, false) := by
  have := pushF_false_resume h []
  rw [List.append_nil, List.append_nil] at this
  rw [this, h]

theorem pushF_finalized_stuck {fr : BaseFrame} (q : List Nat)
    (h : fr.state = FrameStates.Finalized) : fr.pushF q = (fr, q, false) := by
  rw [pushF_skip q (by rw [h]; decide) (by rw [h]; decide) (by rw [h]; decide)]
  unfold BaseFrame.stagePayloadF
  rw [if_neg (by rw [h]; decide)]

theorem feedF_finalized {fr : BaseFrame} (q : List Nat) (cs : List (List Nat))
    (h : fr.state = FrameStates.Finalized) : feedF fr q cs = (fr, q ++ cs.flatten) := by
  induction cs generalizing q with
  | nil => simp [feedF]
  | cons c cs ih =>
    unfold feedF
    rw [pushF_finalized_stuck (q ++ c) h]
    dsimp only
    rw [ih (q ++ c)]
    simp [List.append_assoc]

theorem feedF_eq_pushF (cs : List (List Nat)) : ∀ (fr : BaseFrame) (q : List Nat),
    fr.pushF q = (fr, q, false) →
    (feedF fr q cs).1 = (fr.pushF (q ++ cs.flatten)).1 ∧
    (feedF fr q cs).2 = (fr.pushF (q ++ cs.flatten)).2.1 := by
  induction cs with
  | nil =>
    intro fr q h
    simp only [feedF, List.flatten_nil, List.append_nil, h]
    exact ⟨trivial, trivial⟩
  | cons c cs ih =>
    intro fr q h
    unfold feedF
    rcases hp : fr.pushF (q ++ c) with ⟨f1, q1, r⟩
    rcases r with _ | _
    · have hsat := pushF_saturated hp
      have hres := pushF_false_resume hp cs.flatten
      have := ih f1 q1 hsat
      dsimp only
      rw [this.1, this.2, hres]
      rw [List.flatten_cons, ← List.append_assoc]
      exact ⟨rfl, rfl⟩
    · have hstate := pushF_true_state hp
      dsimp only
      rw [feedF_finalized q1 cs hstate]
      have hmono := pushF_true_mono hp cs.flatten
      rw [List.flatten_cons, ← List.append_assoc, hmono]
      exact ⟨rfl, rfl⟩

theorem feedBL_refine : ∀ (cs : List (List Nat)) (fr : BaseFrame) (bl : BLState),
    (∀ c ∈ cs, c ≠ []) → BLInv bl → 10 ≤ fr.frameHeader.length →
    (feedBL fr bl cs).1 = (feedF fr bl.toBytes cs).1
  | [], fr, bl, _hne, _hInv, _hH => rfl
  | c :: cs, fr, bl, hne, hInv, hH => by
    unfold feedBL feedF
    have hc : c ≠ [] := hne c (List.mem_cons_self c cs)
    have hw := bl.write_spec c hInv hc
    have hpr := push_refine fr (bl.write c) hw.1 hH
    have hne2 : ∀ x ∈ cs, x ≠ [] := fun x hx => hne x (List.mem_cons_of_mem _ hx)
    have ih := feedBL_refine cs (fr.push (bl.write c)).1 (fr.push (bl.write c)).2.1
      hne2 hpr.2.2.2.1 hpr.2.2.2.2
    rw [ih]
    rw [hpr.2.1, ← hw.2.1]
    rw [hpr.1]

theorem decodeOnce_refine (s : List Nat) (hs : s ≠ []) :
    (decodeOnce s).1 = ((BaseFrame.init (List.replicate 10 0)).pushF s).1 ∧
    (decodeOnce s).2.1.toBytes = ((BaseFrame.init (List.replicate 10 0)).pushF s).2.1 ∧
    (decodeOnce s).2.2 = ((BaseFrame.init (List.replicate 10 0)).pushF s).2.2 ∧
    BLInv (decodeOnce s).2.1 := by
  have hw := BLState.write_spec BLState.empty s BLInv_empty hs
  have htb : (BLState.empty.write s).toBytes = s := by
    rw [hw.2.1]
    rfl
  have hpr := push_refine (BaseFrame.init (List.replicate 10 0)) (BLState.empty.write s)
    hw.1 (by simp [BaseFrame.init])
  rw [htb] at hpr
  exact ⟨hpr.1, hpr.2.1, hpr.2.2.1, hpr.2.2.2.1⟩

/-- C2: the inbound decoder is feed-order-invariant: for every well-formed
single-frame byte stream (one whose one-shot decode finalizes) and every
partition of that stream into nonempty chunks, appending the chunks one at a
time to the byte queue and calling `push` after each append finalizes a frame
whose `fin`, `opcode` and `payload` equal those of the one-shot decode. -/
theorem c2_decoder_feed_order_invariant (chunks : List (List Nat))
    (hne : ∀ c ∈ chunks, c ≠ []) (F : BaseFrame) (blRest : BLState)
    (hdec : decodeOnce chunks.flatten = (F, blRest, true)) :
    (feedBL (BaseFrame.init (List.replicate 10 0)) BLState.empty chunks).1.fin = F.fin ∧
    (feedBL (BaseFrame.init (List.replicate 10 0)) BLState.empty chunks).1.opcode = F.opcode ∧
    (feedBL (BaseFrame.init (List.replicate 10 0)) BLState.empty chunks).1.data = F.data ∧
    (feedBL (BaseFrame.init (List.replicate 10 0)) BLState.empty chunks).1.state =
      FrameStates.Finalized := by
  by_cases hs : chunks.flatten = []
  · exfalso
    rw [hs] at hdec
    have hfalse : (decodeOnce []).2.2 = false := rfl
    rw [hdec] at hfalse
    simp at hfalse
  · have hdr := decodeOnce_refine chunks.flatten hs
    rcases hq : (BaseFrame.init (List.replicate 10 0)).pushF chunks.flatten with ⟨F2, Q2, r2⟩
    rw [hdec, hq] at hdr
    have hF : F = F2 := hdr.1
    have hr : r2 = true := hdr.2.2.1.symm
    have hfeed := feedBL_refine chunks (BaseFrame.init (List.replicate 10 0)) BLState.empty
      hne BLInv_empty (by simp [BaseFrame.init])
    have hsat : (BaseFrame.init (List.replicate 10 0)).pushF [] =
        (BaseFrame.init (List.replicate 10 0), [], false) := rfl
    have hmain := feedF_eq_pushF chunks (BaseFrame.init (List.replicate 10 0)) [] hsat
    have hE : BLState.empty.toBytes = [] := rfl
    rw [hE] at hfeed
    rw [hfeed, hmain.1]
    rw [List.nil_append, hq, hF]
    refine ⟨rfl, rfl, rfl, ?_⟩
    subst hr
    exact pushF_true_state hq

/-- Witness for C2 at the stream `81 05 48 65 6C 6C 6F` split into three
chunks. -/
theorem c2_decoder_feed_order_invariant_witness :
    (∀ c ∈ [[0x81], [0x05, 0x48], [0x65, 0x6C, 0x6C, 0x6F]], c ≠ ([] : List Nat)) ∧
    (feedBL (BaseFrame.init (List.replicate 10 0)) BLState.empty
      [[0x81], [0x05, 0x48], [0x65, 0x6C, 0x6C, 0x6F]]).1.data =
      (decodeOnce [[0x81], [0x05, 0x48], [0x65, 0x6C, 0x6C, 0x6F]].flatten).1.data := by
  refine ⟨by decide, ?_⟩
  have h := c2_decoder_feed_order_invariant [[0x81], [0x05, 0x48], [0x65, 0x6C, 0x6C, 0x6F]]
    (by decide) (decodeOnce [[0x81], [0x05, 0x48], [0x65, 0x6C, 0x6C, 0x6F]].flatten).1
    (decodeOnce [[0x81], [0x05, 0x48], [0x65, 0x6C, 0x6C, 0x6F]].flatten).2.1
    (by decide)
  exact h.2.2.1

/-- C9: feeding the 7-byte stream `81 05 48 65 6C 6C 6F` to a fresh decoder
over an empty byte queue finalizes one frame with `fin = true`,
`opcode = 0x1` and payload "Hello", consuming all 7 bytes. -/
theorem c9_decode_small_text_frame :
    (decodeOnce [0x81, 0x05, 0x48, 0x65, 0x6C, 0x6C, 0x6F]).2.2 = true ∧
    (decodeOnce [0x81, 0x05, 0x48, 0x65, 0x6C, 0x6C, 0x6F]).1.fin = true ∧
    (decodeOnce [0x81, 0x05, 0x48, 0x65, 0x6C, 0x6C, 0x6F]).1.opcode = 0x1 ∧
    (decodeOnce [0x81, 0x05, 0x48, 0x65, 0x6C, 0x6C, 0x6F]).1.data =
      [0x48, 0x65, 0x6C, 0x6C, 0x6F] ∧
    (decodeOnce [0x81, 0x05, 0x48, 0x65, 0x6C, 0x6C, 0x6F]).1.state =
      FrameStates.Finalized ∧
    (decodeOnce [0x81, 0x05, 0x48, 0x65, 0x6C, 0x6C, 0x6F]).2.1.len = 0 := by
  decide

/-- C1: at `Awaiting64Bit` with 8 queued bytes holding the big-endian 64-bit
value `2^32` (extended length bytes `00 00 00 01 00 00 00 00`), `push`
consumes all 8 bytes but sets `length` from `readUInt32BE(6)` — the low 32
bits only — yielding `0` instead of `4294967296`, exactly as flagged in the
spec's design notes. -/
theorem c1_awaiting64_reads_low32_at_failing_input :
    ((BaseFrame.init (List.replicate 10 0)).push (BLState.empty.write [0x82, 0x7F])).1.state =
      FrameStates.Awaiting64Bit ∧
    (((BaseFrame.init (List.replicate 10 0)).push
        (BLState.empty.write [0x82, 0x7F])).1.push
      (((BaseFrame.init (List.replicate 10 0)).push (BLState.empty.write [0x82, 0x7F])).2.1.write
        [0x00, 0x00, 0x00, 0x01, 0x00, 0x00, 0x00, 0x00])).1.length = 0 ∧
    (((BaseFrame.init (List.replicate 10 0)).push
        (BLState.empty.write [0x82, 0x7F])).1.push
      (((BaseFrame.init (List.replicate 10 0)).push (BLState.empty.write [0x82, 0x7F])).2.1.write
        [0x00, 0x00, 0x00, 0x01, 0x00, 0x00, 0x00, 0x00])).2.1.len = 0 ∧
    (((BaseFrame.init (List.replicate 10 0)).push
        (BLState.empty.write [0x82, 0x7F])).1.push
      (((BaseFrame.init (List.replicate 10 0)).push (BLState.empty.write [0x82, 0x7F])).2.1.write
        [0x00, 0x00, 0x00, 0x01, 0x00, 0x00, 0x00, 0x00])).1.length ≠ 4294967296 := by
  decide

/-- C4: close-code validation succeeds exactly on
`{1000..1003, 1007..1015} ∪ [3000, 5000)` and fails on
`{1004, 1005, 1006} ∪ [1016, 2000) ∪ [2000, 3000) ∪ [0, 1000) ∪ [5000, ∞)`. -/
theorem c4_close_code_validation (code : Nat) :
    ((code = 1000 ∨ code = 1001 ∨ code = 1002 ∨ code = 1003 ∨ code = 1007 ∨ code = 1008 ∨
      code = 1009 ∨ code = 1010 ∨ code = 1011 ∨ code = 1012 ∨ code = 1013 ∨ code = 1014 ∨
      code = 1015 ∨ (3000 ≤ code ∧ code < 5000)) →
      validateCloseCode code = ValidationResult.valid) ∧
    ((code = 1004 ∨ code = 1005 ∨ code = 1006 ∨ (1016 ≤ code ∧ code < 2000) ∨
      (2000 ≤ code ∧ code < 3000) ∨ code < 1000 ∨ 5000 ≤ code) →
      validateCloseCode code ≠ ValidationResult.valid) := by
  constructor
  · intro h
    rcases h with h | h | h | h | h | h | h | h | h | h | h | h | h | ⟨h1, h2⟩
    all_goals try (subst h; decide)
    unfold validateCloseCode
    rw [if_neg (by omega), if_neg (by omega), if_neg (by omega), if_pos (by omega)]
  · intro h
    rcases h with h | h | h | ⟨h1, h2⟩ | ⟨h1, h2⟩ | h | h
    all_goals try (subst h; decide)
    · unfold validateCloseCode
      rw [if_neg (by omega), if_pos (by omega), if_pos (by omega)]
      simp
    · unfold validateCloseCode
      rw [if_neg (by omega), if_neg (by omega), if_pos (by omega)]
      simp
    · unfold validateCloseCode
      rw [if_pos (by omega)]
      simp
    · unfold validateCloseCode
      rw [if_pos (by omega)]
      simp

/-- Witness for C4 at codes 1000 and 1004. -/
theorem c4_close_code_validation_witness :
    validateCloseCode 1000 = ValidationResult.valid ∧
    validateCloseCode 1004 ≠ ValidationResult.valid :=
  ⟨(c4_close_code_validation 1000).1 (Or.inl rfl),
   (c4_close_code_validation 1004).2 (Or.inl rfl)⟩

/-- C5 counterexample: in the reachable Handshaking state in which no TLS
socket exists yet (opening handshake still in flight), a second `abort`
returns `true` again and dispatches a second `close` and a second `failure`,
because the `sockets.tls?.ended` guard is vacuously falsy without a socket. -/
theorem c5_abort_not_idempotent_without_socket :
    ((⟨false, false, true, ConnectionStates.Handshaking, false, 0, 0, 0⟩ :
        WSState).abort.1.abort).2 = true ∧
    ((⟨false, false, true, ConnectionStates.Handshaking, false, 0, 0, 0⟩ :
        WSState).abort.1.abort).1.closeEvents = 2 ∧
    ((⟨false, false, true, ConnectionStates.Handshaking, false, 0, 0, 0⟩ :
        WSState).abort.1.abort).1.failureEvents = 2 := by
  decide

/-- C5 amended: whenever a transport socket exists (and is not yet ended),
the first `abort` ends it, dispatches exactly one `close` and one `failure`,
rejects a pending close future, marks the status Closed and returns `true`;
every subsequent `abort` returns `false` and changes nothing. -/
theorem c5_abort_idempotent_with_socket (s : WSState)
    (hp : s.tlsPresent = true) (he : s.tlsEnded = false) :
    s.abort.2 = true ∧
    s.abort.1.status = ConnectionStates.Closed ∧
    s.abort.1.tlsEnded = true ∧
    s.abort.1.closeEvents = s.closeEvents + 1 ∧
    s.abort.1.failureEvents = s.failureEvents + 1 ∧
    s.abort.1.closeRejectPending = false ∧
    (s.closeRejectPending = true → s.abort.1.closeRejections = s.closeRejections + 1) ∧
    s.abort.1.abort.2 = false ∧
    s.abort.1.abort.1 = s.abort.1 := by
  unfold WSState.abort WSState.endSocket WSState.performCloseState WSState.emitClose
    WSState.emitFailure
  rw [hp, he]
  simp only [Bool.and_false, Bool.false_eq_true, if_false, if_pos rfl]
  by_cases hr : s.closeRejectPending
  · simp only [hr, if_true]
    refine ⟨?_, ?_, ?_, ?_, ?_, ?_, ?_, ?_, ?_⟩ <;> first | trivial | (intro _hc; rfl) | rfl
  · simp only [hr, if_false]
    refine ⟨?_, ?_, ?_, ?_, ?_, ?_, ?_, ?_, ?_⟩ <;>
      first
        | trivial
        | (intro hc; exact absurd hc (by simp [hr]))
        | rfl

/-- Witness for C5's amended theorem at a concrete Open state with a live
socket and a pending close future. -/
theorem c5_abort_idempotent_with_socket_witness :
    ((⟨true, false, false, ConnectionStates.Open, true, 0, 0, 0⟩ : WSState).abort.2 = true) ∧
    ((⟨true, false, false, ConnectionStates.Open, true, 0, 0, 0⟩ : WSState).abort.1.abort.2
      = false) := by
  have h := c5_abort_idempotent_with_socket
    ⟨true, false, false, ConnectionStates.Open, true, 0, 0, 0⟩ rfl rfl
  exact ⟨h.1, h.2.2.2.2.2.2.2.1⟩

/-- C8 counterexample: encoding opcode 1, payload "Hi" under masking key
`37 FA 21 3D` does not produce the byte string claimed in the spec scenario
(`... 7F 9F`); the final byte is `i XOR 0xFA = 0x93`, not `0x9F`. -/
theorem c8_encode_hi_ne_claimed_vector :
    (OutboundFrame.build OPCodes.TextMessage [0x48, 0x69] 1005).prepareWith
      [0x37, 0xFA, 0x21, 0x3D] ≠ [0x81, 0x82, 0x37, 0xFA, 0x21, 0x3D, 0x7F, 0x9F] := by
  decide

/-- C8 amended: the encoding of opcode 1, payload "Hi" under masking key
`37 FA 21 3D` is exactly `81 82 37 FA 21 3D 7F 93`: byte 0 is
`0x80 | opcode`, byte 1 is `0x80 | len7`, bytes 2-5 are the masking key, and
each payload byte is XORed with `mask[i % 4]`. -/
theorem c8_encode_hi_bytes :
    (OutboundFrame.build OPCodes.TextMessage [0x48, 0x69] 1005).prepareWith
      [0x37, 0xFA, 0x21, 0x3D] = [0x81, 0x82, 0x37, 0xFA, 0x21, 0x3D, 0x7F, 0x93] ∧
    (0x81 : Nat) = 0x80 ||| OPCodes.TextMessage ∧
    (0x82 : Nat) = 0x80 ||| 2 ∧
    (0x7F : Nat) = 0x48 ^^^ 0x37 ∧
    (0x93 : Nat) = 0x69 ^^^ 0xFA := by
  decide

/-- C10: all `BufferList` instances alias the one module-level queue: a write
through one instance is a write through any other, `length` read through any
instance reflects it (grown by exactly the chunk size), and a newly
constructed instance reports nonzero length whenever any other instance
holds unread bytes. -/
theorem c10_bufferlist_shared_state (a b : BufferList) (st : BLState) (c : List Nat) :
    a.writeOn st c = b.writeOn st c ∧
    b.lengthOf (a.writeOn st c) = a.lengthOf (a.writeOn st c) ∧
    a.lengthOf (a.writeOn st c) = a.lengthOf st + c.length ∧
    (∀ st2 : BLState, 0 < b.lengthOf st2 → 0 < (BufferList.new ()).lengthOf st2) :=
  ⟨rfl, rfl, rfl, fun _st2 h => h⟩

/-- Witness for C10 with two distinct instance values and a concrete queue. -/
theorem c10_bufferlist_shared_state_witness :
    (BufferList.new ()).lengthOf
      ((BufferList.new ()).writeOn ⟨[], 0, 0⟩ [7, 8, 9]) = 3 ∧
    0 < (BufferList.new ()).lengthOf ⟨[[5]], 0, 1⟩ := by
  have h := c10_bufferlist_shared_state (BufferList.new ()) (BufferList.new ()) ⟨[], 0, 0⟩
    [7, 8, 9]
  exact ⟨by rw [h.2.2.1]; decide, h.2.2.2 ⟨[[5]], 0, 1⟩ (by decide)⟩

/-- C7: with status 101 and correct connection/upgrade headers, handshake
validation succeeds iff the `sec-websocket-accept` header equals the base64
SHA-1 of `nonce ++ "258EAFA5-E914-47DA-95CA-C5AB0DC85B11"` byte-for-byte; any
mismatch yields the nonce-mismatch error instead. -/
theorem c7_handshake_succeeds_iff_nonce_matches (sha1base64 : String → String)
    (nonce : String) (resp : Response) (h : ResponseHeaders)
    (hstatus : resp.statusCode = 101) (hheaders : resp.headers = some h)
    (hconn : h.connection.map jsToLowerCase = some ("upgrade"))
    (hupg : h.upgrade.map jsToLowerCase = some ("websocket")) :
    (validateHandshake sha1base64 nonce resp = ValidationResult.valid ↔
      h.secWebSocketAccept = some (sha1base64 (nonce ++ HeaderConcatNonce))) ∧
    (h.secWebSocketAccept ≠ some (sha1base64 (nonce ++ HeaderConcatNonce)) →
      validateHandshake sha1base64 nonce resp = ValidationResult.invalid ("Expected \""
        ++ sha1base64 (nonce ++ HeaderConcatNonce)
        ++ "\" as The Response Nonce, But Received \""
        ++ (match h.secWebSocketAccept with | some a => a | none => "undefined")
        ++ "\" in The Opening Handshake.")) := by
  unfold validateHandshake
  rw [if_neg (by simp [hstatus]), hheaders]
  dsimp only
  rw [if_neg (by simp [hconn]), if_neg (by simp [hupg])]
  by_cases hacc : h.secWebSocketAccept = some (sha1base64 (nonce ++ HeaderConcatNonce))
  · rw [if_neg (by simp [hacc])]
    exact ⟨⟨fun _ => hacc, fun _ => rfl⟩, fun hmm => absurd hacc hmm⟩
  · rw [if_pos hacc]
    refine ⟨⟨fun hv => absurd hv (by simp), fun hm => absurd hm hacc⟩, fun _ => rfl⟩

/-- Witness for C7 with an abstract hash instantiated as a constant function
and a matching response. -/
theorem c7_handshake_succeeds_iff_nonce_matches_witness :
    validateHandshake (fun _s => "ACCEPT") ("nonce")
      ⟨101, some ⟨some ("Upgrade"), some ("WebSocket"), some ("ACCEPT")⟩⟩ =
      ValidationResult.valid := by
  have h := c7_handshake_succeeds_iff_nonce_matches (fun _s => "ACCEPT") ("nonce")
    ⟨101, some ⟨some ("Upgrade"), some ("WebSocket"), some ("ACCEPT")⟩⟩
    ⟨some ("Upgrade"), some ("WebSocket"), some ("ACCEPT")⟩
    rfl rfl (by decide) (by decide)
  exact h.1.mpr rfl

theorem stagePayloadF_true_len {fr f1 : BaseFrame} {q q1 : List Nat}
    (h : fr.stagePayloadF q = (f1, q1, true)) : f1.data.length = f1.length := by
  unfold BaseFrame.stagePayloadF at h
  by_cases hs : fr.state = FrameStates.AwaitingPayload
  · rw [if_pos hs] at h
    by_cases hz : fr.length = 0
    · simp only [hz, if_true] at h
      rw [if_neg (by omega)] at h
      simp only [Prod.mk.injEq] at h
      rw [← h.1]
      simp [hz]
    · simp only [if_neg hz] at h
      by_cases hg : q.length < fr.length
      · rw [if_pos hg] at h
        exact absurd h (by simp)
      · rw [if_neg hg] at h
        simp only [Prod.mk.injEq] at h
        rw [← h.1]
        simp only [List.length_take]
        omega
  · rw [if_neg hs] at h
    exact absurd h (by simp)

theorem pushF_true_len {fr f1 : BaseFrame} {q q1 : List Nat}
    (h : fr.pushF q = (f1, q1, true)) : f1.data.length = f1.length := by
  unfold BaseFrame.pushF at h
  rcases hh : fr.stageHeaderF q with p | ⟨fh, qh⟩
  · rw [hh] at h
    obtain ⟨hp, _, _⟩ := stageHeaderF_error hh
    subst hp
    simp only [Prod.mk.injEq] at h
    exact absurd h.2.2 (by simp)
  · rw [hh] at h
    dsimp only at h
    rcases he : fh.stageExtF qh with p | ⟨f2, q2⟩
    · rw [he] at h
      obtain ⟨hp, _⟩ := stageExtF_error he
      subst hp
      simp only [Prod.mk.injEq] at h
      exact absurd h.2.2 (by simp)
    · rw [he] at h
      dsimp only at h
      exact stagePayloadF_true_len h

/-- C6: for every stream whose one-shot decode finalizes a frame with the
Close opcode, the `CloseFrame` built from it (src/Frames/Frame.js) has
`code = 1005` when the payload is shorter than 2 bytes and otherwise the
big-endian u16 at payload offset 0, with `reason` the payload bytes after the
first two.  (The `frame.length` the constructor tests equals the payload
length of every finalized frame.) -/
theorem c6_closeframe_parse (s : List Nat) (F : BaseFrame) (blRest : BLState)
    (hdec : decodeOnce s = (F, blRest, true)) (hop : F.opcode = OPCodes.SocketClose) :
    (CloseFrame.ofFrame F).code =
      (if F.data.length < 2 then 1005 else readUInt16BE F.data 0) ∧
    (CloseFrame.ofFrame F).reason = F.data.drop 2 := by
  by_cases hs : s = []
  · exfalso
    rw [hs] at hdec
    have hfalse : (decodeOnce []).2.2 = false := rfl
    rw [hdec] at hfalse
    simp at hfalse
  · have hdr := decodeOnce_refine s hs
    rcases hq : (BaseFrame.init (List.replicate 10 0)).pushF s with ⟨F2, Q2, r2⟩
    rw [hdec, hq] at hdr
    have hF : F = F2 := hdr.1
    have hr : r2 = true := hdr.2.2.1.symm
    subst hr
    have hlen : F.data.length = F.length := by
      rw [hF]
      exact pushF_true_len hq
    unfold CloseFrame.ofFrame
    rw [← hlen]
    exact ⟨rfl, rfl⟩

/-- Witness for C6 at the close frame `88 02 03 E8` (code 1000, no reason). -/
theorem c6_closeframe_parse_witness :
    (CloseFrame.ofFrame (decodeOnce [0x88, 0x02, 0x03, 0xE8]).1).code = 1000 ∧
    (CloseFrame.ofFrame (decodeOnce [0x88, 0x02, 0x03, 0xE8]).1).reason = [] := by
  have h := c6_closeframe_parse [0x88, 0x02, 0x03, 0xE8]
    (decodeOnce [0x88, 0x02, 0x03, 0xE8]).1 (decodeOnce [0x88, 0x02, 0x03, 0xE8]).2.1
    (by decide) (by decide)
  refine ⟨?_, ?_⟩
  · rw [h.1]
    decide
  · rw [h.2]
    decide

/-! ### Bit-level helper lemmas for the encoder/decoder round trip -/

theorem land255_eq_mod (x : Nat) : x &&& 255 = x % 256 := by
  have h := Nat.and_pow_two_sub_one_eq_mod x 8
  norm_num at h
  exact h

theorem lor128_land127 (x : Nat) (hx : x < 128) :
    (128 ||| x) &&& 127 = x := by
  apply Nat.eq_of_testBit_eq
  intro i
  simp only [Nat.testBit_and, Nat.testBit_or]
  have h127 : Nat.testBit 127 i = decide (i < 7) := by
    have h := Nat.testBit_two_pow_sub_one 7 i
    norm_num at h
    exact h
  have h128 : Nat.testBit 128 i = decide (7 = i) := by
    have h : (128 : Nat) = 2 ^ 7 := by norm_num
    rw [h, Nat.testBit_two_pow]
  rw [h127, h128]
  rcases Nat.lt_or_ge i 7 with hi | hi
  · rw [decide_eq_true hi, decide_eq_false (by omega : ¬(7 = i))]
    simp
  · rw [decide_eq_false (by omega : ¬(i < 7))]
    have hx2 : Nat.testBit x i = false :=
      Nat.testBit_lt_two_pow (Nat.lt_of_lt_of_le hx (by
        calc (128 : Nat) = 2 ^ 7 := by norm_num
        _ ≤ 2 ^ i := Nat.pow_le_pow_right (by omega) hi))
    rw [hx2]
    simp

theorem maskBytes_involutive (mask : List Nat) : ∀ (i : Nat) (l : List Nat),
    maskBytes mask i (maskBytes mask i l) = l
  | _, [] => rfl
  | i, b :: rest => by
    simp only [maskBytes]
    rw [maskBytes_involutive mask (i + 1) rest, Nat.xor_assoc, Nat.xor_self, Nat.xor_zero]

theorem maskBytes_length (mask : List Nat) : ∀ (i : Nat) (l : List Nat),
    (maskBytes mask i l).length = l.length
  | _, [] => rfl
  | i, b :: rest => by
    simp only [maskBytes, List.length_cons]
    rw [maskBytes_length mask (i + 1) rest]

theorem stagePayloadF_exact (fr : BaseFrame) (payload : List Nat)
    (hs : fr.state = FrameStates.AwaitingPayload) (hL : payload.length = fr.length) :
    fr.stagePayloadF payload =
      ({ fr with data := payload, state := FrameStates.Finalized }, [], true) := by
  unfold BaseFrame.stagePayloadF
  rw [if_pos hs]
  by_cases hz : fr.length = 0
  · have hp : payload = [] := List.length_eq_zero.mp (by omega)
    subst hp
    simp only [hz, if_true]
    rw [if_neg (by omega)]
    rfl
  · simp only [if_neg hz]
    rw [if_neg (by omega)]
    rw [← hL, List.take_length, List.drop_length]

theorem stageHeaderF_init (b0 b1 : Nat) (rest : List Nat) :
    (BaseFrame.init (List.replicate 10 0)).stageHeaderF (b0 :: b1 :: rest) =
      Except.ok ({
        frameHeader := b0 :: b1 :: List.replicate 8 0,
        state := if b1 &&& BinaryHelpers.Length = 126 then FrameStates.Awaiting16Bit
          else if b1 &&& BinaryHelpers.Length = 127 then FrameStates.Awaiting64Bit
          else FrameStates.AwaitingPayload,
        firstByte := some b0, secondByte := some b1,
        fin := b0 &&& BinaryHelpers.Fin != 0,
        opcode := b0 &&& BinaryHelpers.OPCode,
        length := b1 &&& BinaryHelpers.Length, data := [] }, rest) := by
  unfold BaseFrame.stageHeaderF BaseFrame.init
  rw [if_pos rfl, if_neg (by simp)]
  rfl

theorem decodeF_len7 (b0 L : Nat) (payload : List Nat) (hL : payload.length = L)
    (h125 : L ≤ 125) :
    (BaseFrame.init (List.replicate 10 0)).pushF (b0 :: (128 ||| L) :: payload) =
      ({ frameHeader := b0 :: (128 ||| L) :: List.replicate 8 0,
         state := FrameStates.Finalized, firstByte := some b0,
         secondByte := some (128 ||| L),
         fin := b0 &&& BinaryHelpers.Fin != 0,
         opcode := b0 &&& BinaryHelpers.OPCode,
         length := L, data := payload }, [], true) := by
  have hlen7 : (128 ||| L) &&& BinaryHelpers.Length = L := by
    have h := lor128_land127 L (by omega)
    simpa [BinaryHelpers.Length] using h
  unfold BaseFrame.pushF
  rw [stageHeaderF_init, hlen7]
  rw [if_neg (by omega : ¬L = 126), if_neg (by omega : ¬L = 127)]
  dsimp only
  rw [stageExtF_skip payload
    (show FrameStates.AwaitingPayload ≠ FrameStates.Awaiting16Bit from by decide)
    (show FrameStates.AwaitingPayload ≠ FrameStates.Awaiting64Bit from by decide)]
  dsimp only
  rw [stagePayloadF_exact _ payload rfl hL]

theorem decodeF_len16 (b0 h1 l1 : Nat) (payload : List Nat)
    (hL : payload.length = 256 * h1 + l1) :
    (BaseFrame.init (List.replicate 10 0)).pushF (b0 :: 254 :: h1 :: l1 :: payload) =
      ({ frameHeader := b0 :: 254 :: h1 :: l1 :: List.replicate 6 0,
         state := FrameStates.Finalized, firstByte := some b0,
         secondByte := some 254,
         fin := b0 &&& BinaryHelpers.Fin != 0,
         opcode := b0 &&& BinaryHelpers.OPCode,
         length := 256 * h1 + l1, data := payload }, [], true) := by
  have h126 : ((254 : Nat) &&& BinaryHelpers.Length) = 126 := by decide
  unfold BaseFrame.pushF
  rw [stageHeaderF_init, h126]
  rw [if_pos rfl]
  dsimp only
  unfold BaseFrame.stageExtF
  rw [if_pos rfl, if_neg (by simp)]
  dsimp only
  have htake : List.take 2 (h1 :: l1 :: payload) = [h1, l1] := rfl
  have hdrop : List.drop 2 (h1 :: l1 :: payload) = payload := rfl
  have hsp : spliceAt (b0 :: 254 :: List.replicate 8 0) 2 [h1, l1] =
      b0 :: 254 :: h1 :: l1 :: List.replicate 6 0 := rfl
  have hread : readUInt16BE (b0 :: 254 :: h1 :: l1 :: List.replicate 6 0) 2 =
      256 * h1 + l1 := rfl
  rw [htake, hdrop, hsp, hread]
  rw [stagePayloadF_exact _ payload rfl hL]

theorem decodeF_len64 (b0 e0 e1 e2 e3 e4 e5 e6 e7 : Nat) (payload : List Nat)
    (hL : payload.length = 16777216 * e4 + 65536 * e5 + 256 * e6 + e7) :
    (BaseFrame.init (List.replicate 10 0)).pushF
      (b0 :: 255 :: e0 :: e1 :: e2 :: e3 :: e4 :: e5 :: e6 :: e7 :: payload) =
      ({ frameHeader := [b0, 255, e0, e1, e2, e3, e4, e5, e6, e7],
         state := FrameStates.Finalized, firstByte := some b0,
         secondByte := some 255,
         fin := b0 &&& BinaryHelpers.Fin != 0,
         opcode := b0 &&& BinaryHelpers.OPCode,
         length := 16777216 * e4 + 65536 * e5 + 256 * e6 + e7, data := payload },
       [], true) := by
  have h127 : ((255 : Nat) &&& BinaryHelpers.Length) = 127 := by decide
  unfold BaseFrame.pushF
  rw [stageHeaderF_init, h127]
  rw [if_neg (by omega : ¬(127 : Nat) = 126), if_pos rfl]
  dsimp only
  unfold BaseFrame.stageExtF
  rw [if_neg (show FrameStates.Awaiting64Bit ≠ FrameStates.Awaiting16Bit from by decide),
    if_pos rfl, if_neg (by simp)]
  dsimp only
  have htake : List.take 8 (e0 :: e1 :: e2 :: e3 :: e4 :: e5 :: e6 :: e7 :: payload) =
      [e0, e1, e2, e3, e4, e5, e6, e7] := rfl
  have hdrop : List.drop 8 (e0 :: e1 :: e2 :: e3 :: e4 :: e5 :: e6 :: e7 :: payload) =
      payload := rfl
  have hsp : spliceAt (b0 :: 255 :: List.replicate 8 0) 2 [e0, e1, e2, e3, e4, e5, e6, e7] =
      [b0, 255, e0, e1, e2, e3, e4, e5, e6, e7] := rfl
  have hread : readUInt32BE [b0, 255, e0, e1, e2, e3, e4, e5, e6, e7] 6 =
      16777216 * e4 + 65536 * e5 + 256 * e6 + e7 := rfl
  rw [htake, hdrop, hsp, hread]
  rw [stagePayloadF_exact _ payload rfl hL]

theorem build_small (opcode : Nat) (payload : List Nat) (cc : Nat)
    (hop : ¬opcode = OPCodes.SocketClose) (h125 : payload.length ≤ 125) :
    OutboundFrame.build opcode payload cc =
      ⟨(128 ||| opcode) :: (128 ||| payload.length) :: (List.replicate 4 0 ++ payload), 2, 6⟩ := by
  unfold OutboundFrame.build
  simp only [if_neg hop, Nat.add_zero]
  simp only [if_pos h125]
  have e1 : List.replicate (payload.length + (2 + 4)) (0 : Nat) =
      0 :: 0 :: List.replicate (payload.length + 4) 0 := by
    rw [show payload.length + (2 + 4) = (payload.length + 4) + 1 + 1 by omega]
    rw [List.replicate_succ, List.replicate_succ]
  rw [e1]
  have e2 : ((0 :: 0 :: List.replicate (payload.length + 4) (0 : Nat)).set 0
      (128 ||| opcode)).set 1 (128 ||| payload.length) =
      (128 ||| opcode) :: (128 ||| payload.length) :: List.replicate (payload.length + 4) 0 := rfl
  rw [e2]
  have e3 : ((128 ||| opcode) :: (128 ||| payload.length) ::
      List.replicate (payload.length + 4) (0 : Nat)).length - (2 + 4) = payload.length := by
    simp only [List.length_cons, List.length_replicate]
    omega
  rw [e3, List.take_length]
  unfold spliceAt
  have e4 : ((128 ||| opcode) :: (128 ||| payload.length) ::
      List.replicate (payload.length + 4) (0 : Nat)).take (2 + 4) =
      (128 ||| opcode) :: (128 ||| payload.length) :: List.replicate 4 0 := by
    have : ((2 : Nat) + 4) = 6 := rfl
    rw [this]
    have ht : (List.replicate (payload.length + 4) (0 : Nat)).take 4 = List.replicate 4 0 := by
      rw [List.take_replicate]
      congr 1
      omega
    calc ((128 ||| opcode) :: (128 ||| payload.length) ::
        List.replicate (payload.length + 4) (0 : Nat)).take 6
        = (128 ||| opcode) :: (128 ||| payload.length) ::
          (List.replicate (payload.length + 4) (0 : Nat)).take 4 := rfl
      _ = (128 ||| opcode) :: (128 ||| payload.length) :: List.replicate 4 0 := by rw [ht]
  have e5 : ((128 ||| opcode) :: (128 ||| payload.length) ::
      List.replicate (payload.length + 4) (0 : Nat)).drop (2 + 4 + payload.length) = [] := by
    apply List.drop_eq_nil_of_le
    simp only [List.length_cons, List.length_replicate]
    omega
  rw [e4, e5, List.append_nil]
  simp [List.append_assoc]

theorem build_mid (opcode : Nat) (payload : List Nat) (cc : Nat)
    (hop : ¬opcode = OPCodes.SocketClose) (hlo : ¬payload.length ≤ 125)
    (hhi : payload.length ≤ 65535) :
    OutboundFrame.build opcode payload cc =
      ⟨(128 ||| opcode) :: 254 :: (payload.length / 256) :: (payload.length &&& Byte) ::
        (List.replicate 4 0 ++ payload), 4, 8⟩ := by
  unfold OutboundFrame.build
  simp only [if_neg hop, Nat.add_zero]
  simp only [if_neg hlo, if_pos hhi]
  have e1 : List.replicate (payload.length + (4 + 4)) (0 : Nat) =
      0 :: 0 :: 0 :: 0 :: List.replicate (payload.length + 4) 0 := by
    rw [show payload.length + (4 + 4) = (payload.length + 4) + 1 + 1 + 1 + 1 by omega]
    rw [List.replicate_succ, List.replicate_succ, List.replicate_succ, List.replicate_succ]
  rw [e1]
  have e2 : ((((0 :: 0 :: 0 :: 0 :: List.replicate (payload.length + 4) (0 : Nat)).set 0
      (128 ||| opcode)).set 1 254).set 2 (payload.length / 256)).set 3
      (payload.length &&& Byte) =
      (128 ||| opcode) :: 254 :: (payload.length / 256) :: (payload.length &&& Byte) ::
        List.replicate (payload.length + 4) 0 := rfl
  rw [e2]
  have e3 : ((128 ||| opcode) :: 254 :: (payload.length / 256) :: (payload.length &&& Byte) ::
      List.replicate (payload.length + 4) (0 : Nat)).length - (4 + 4) = payload.length := by
    simp only [List.length_cons, List.length_replicate]
    omega
  rw [e3, List.take_length]
  unfold spliceAt
  have e4 : ((128 ||| opcode) :: 254 :: (payload.length / 256) :: (payload.length &&& Byte) ::
      List.replicate (payload.length + 4) (0 : Nat)).take (4 + 4) =
      (128 ||| opcode) :: 254 :: (payload.length / 256) :: (payload.length &&& Byte) ::
        List.replicate 4 0 := by
    have h8 : ((4 : Nat) + 4) = 8 := rfl
    rw [h8]
    have ht : (List.replicate (payload.length + 4) (0 : Nat)).take 4 = List.replicate 4 0 := by
      rw [List.take_replicate]
      congr 1
      omega
    calc ((128 ||| opcode) :: 254 :: (payload.length / 256) :: (payload.length &&& Byte) ::
        List.replicate (payload.length + 4) (0 : Nat)).take 8
        = (128 ||| opcode) :: 254 :: (payload.length / 256) :: (payload.length &&& Byte) ::
          (List.replicate (payload.length + 4) (0 : Nat)).take 4 := rfl
      _ = (128 ||| opcode) :: 254 :: (payload.length / 256) :: (payload.length &&& Byte) ::
          List.replicate 4 0 := by rw [ht]
  have e5 : ((128 ||| opcode) :: 254 :: (payload.length / 256) :: (payload.length &&& Byte) ::
      List.replicate (payload.length + 4) (0 : Nat)).drop (4 + 4 + payload.length) = [] := by
    apply List.drop_eq_nil_of_le
    simp only [List.length_cons, List.length_replicate]
    omega
  rw [e4, e5, List.append_nil]
  simp [List.append_assoc]

theorem build_large (opcode : Nat) (payload : List Nat) (cc : Nat)
    (hop : ¬opcode = OPCodes.SocketClose) (hlo : ¬payload.length ≤ 125)
    (hhi : ¬payload.length ≤ 65535) :
    OutboundFrame.build opcode payload cc =
      ⟨(128 ||| opcode) :: 255 ::
        (payload.length / 72057594037927940 &&& Byte) ::
        (payload.length / 281474976710656 &&& Byte) ::
        (payload.length / 1099511627776 &&& Byte) ::
        (payload.length / 4294967296 &&& Byte) ::
        (payload.length / 16777216 &&& Byte) ::
        (payload.length / 65536 &&& Byte) ::
        (payload.length / 256 &&& Byte) ::
        (payload.length &&& Byte) ::
        (List.replicate 4 0 ++ payload), 10, 14⟩ := by
  unfold OutboundFrame.build
  simp only [if_neg hop, Nat.add_zero]
  simp only [if_neg hlo, if_neg hhi]
  have e1 : List.replicate (payload.length + (10 + 4)) (0 : Nat) =
      0 :: 0 :: 0 :: 0 :: 0 :: 0 :: 0 :: 0 :: 0 :: 0 ::
        List.replicate (payload.length + 4) 0 := by
    rw [show payload.length + (10 + 4) =
      (payload.length + 4) + 1 + 1 + 1 + 1 + 1 + 1 + 1 + 1 + 1 + 1 by omega]
    rw [List.replicate_succ, List.replicate_succ, List.replicate_succ, List.replicate_succ,
      List.replicate_succ, List.replicate_succ, List.replicate_succ, List.replicate_succ,
      List.replicate_succ, List.replicate_succ]
  rw [e1]
  have e2 : ((((((((((0 :: 0 :: 0 :: 0 :: 0 :: 0 :: 0 :: 0 :: 0 :: 0 ::
      List.replicate (payload.length + 4) (0 : Nat)).set 0 (128 ||| opcode)).set 1 255).set 2
      (payload.length / 72057594037927940 &&& Byte)).set 3
      (payload.length / 281474976710656 &&& Byte)).set 4
      (payload.length / 1099511627776 &&& Byte)).set 5
      (payload.length / 4294967296 &&& Byte)).set 6
      (payload.length / 16777216 &&& Byte)).set 7
      (payload.length / 65536 &&& Byte)).set 8
      (payload.length / 256 &&& Byte)).set 9
      (payload.length &&& Byte) =
      (128 ||| opcode) :: 255 ::
        (payload.length / 72057594037927940 &&& Byte) ::
        (payload.length / 281474976710656 &&& Byte) ::
        (payload.length / 1099511627776 &&& Byte) ::
        (payload.length / 4294967296 &&& Byte) ::
        (payload.length / 16777216 &&& Byte) ::
        (payload.length / 65536 &&& Byte) ::
        (payload.length / 256 &&& Byte) ::
        (payload.length &&& Byte) ::
        List.replicate (payload.length + 4) 0 := rfl
  rw [e2]
  have e3 : ((128 ||| opcode) :: 255 ::
      (payload.length / 72057594037927940 &&& Byte) ::
      (payload.length / 281474976710656 &&& Byte) ::
      (payload.length / 1099511627776 &&& Byte) ::
      (payload.length / 4294967296 &&& Byte) ::
      (payload.length / 16777216 &&& Byte) ::
      (payload.length / 65536 &&& Byte) ::
      (payload.length / 256 &&& Byte) ::
      (payload.length &&& Byte) ::
      List.replicate (payload.length + 4) (0 : Nat)).length - (10 + 4) = payload.length := by
    simp only [List.length_cons, List.length_replicate]
    omega
  rw [e3, List.take_length]
  unfold spliceAt
  have ht : (List.replicate (payload.length + 4) (0 : Nat)).take 4 = List.replicate 4 0 := by
    rw [List.take_replicate]
    congr 1
    omega
  have e4 : ((128 ||| opcode) :: 255 ::
      (payload.length / 72057594037927940 &&& Byte) ::
      (payload.length / 281474976710656 &&& Byte) ::
      (payload.length / 1099511627776 &&& Byte) ::
      (payload.length / 4294967296 &&& Byte) ::
      (payload.length / 16777216 &&& Byte) ::
      (payload.length / 65536 &&& Byte) ::
      (payload.length / 256 &&& Byte) ::
      (payload.length &&& Byte) ::
      List.replicate (payload.length + 4) (0 : Nat)).take (10 + 4) =
      (128 ||| opcode) :: 255 ::
        (payload.length / 72057594037927940 &&& Byte) ::
        (payload.length / 281474976710656 &&& Byte) ::
        (payload.length / 1099511627776 &&& Byte) ::
        (payload.length / 4294967296 &&& Byte) ::
        (payload.length / 16777216 &&& Byte) ::
        (payload.length / 65536 &&& Byte) ::
        (payload.length / 256 &&& Byte) ::
        (payload.length &&& Byte) ::
        List.replicate 4 0 := by
    have h14 : ((10 : Nat) + 4) = 14 := rfl
    rw [h14]
    show _ :: _ :: _ :: _ :: _ :: _ :: _ :: _ :: _ :: _ ::
      (List.replicate (payload.length + 4) (0 : Nat)).take 4 = _
    rw [ht]
  have e5 : ((128 ||| opcode) :: 255 ::
      (payload.length / 72057594037927940 &&& Byte) ::
      (payload.length / 281474976710656 &&& Byte) ::
      (payload.length / 1099511627776 &&& Byte) ::
      (payload.length / 4294967296 &&& Byte) ::
      (payload.length / 16777216 &&& Byte) ::
      (payload.length / 65536 &&& Byte) ::
      (payload.length / 256 &&& Byte) ::
      (payload.length &&& Byte) ::
      List.replicate (payload.length + 4) (0 : Nat)).drop (10 + 4 + payload.length) = [] := by
    apply List.drop_eq_nil_of_le
    simp only [List.length_cons, List.length_replicate]
    omega
  rw [e4, e5, List.append_nil]
  simp [List.append_assoc]

theorem prepareWith_eval (hdr payload mask : List Nat) (hm : mask.length = 4) :
    (OutboundFrame.mk (hdr ++ (List.replicate 4 0 ++ payload)) hdr.length
      (hdr.length + 4)).prepareWith mask =
      hdr ++ (mask ++ maskBytes mask 0 payload) := by
  unfold OutboundFrame.prepareWith FrameMask
  dsimp only
  have hmt : mask.take ((hdr ++ (List.replicate 4 0 ++ payload)).length - hdr.length) =
      mask := by
    apply List.take_of_length_le
    simp only [List.length_append, List.length_replicate, hm]
    omega
  rw [hmt]
  unfold spliceAt
  rw [List.take_left, hm, List.drop_append]
  have hd4 : (List.replicate 4 (0 : Nat) ++ payload).drop 4 = payload := by
    rw [List.drop_append_eq_append_drop]
    simp
  rw [hd4]
  have hlen4 : hdr.length + 4 = (hdr ++ mask).length := by simp [hm]
  have htk : (hdr ++ mask ++ payload).take (hdr.length + 4) = hdr ++ mask := by
    rw [hlen4, List.take_left]
  have hdp : (hdr ++ mask ++ payload).drop (hdr.length + 4) = payload := by
    rw [hlen4, List.drop_left]
  rw [htk, hdp]
  simp [List.append_assoc]

theorem fakeUnmaskingPeer_eval (hdr payload mask : List Nat) (hm : mask.length = 4) :
    fakeUnmaskingPeer (hdr ++ (mask ++ maskBytes mask 0 payload)) hdr.length mask =
      hdr ++ payload := by
  unfold fakeUnmaskingPeer
  rw [List.take_append_of_le_length (le_refl _), List.take_length, List.drop_append]
  have hd : (mask ++ maskBytes mask 0 payload).drop 4 = maskBytes mask 0 payload := by
    rw [show (4 : Nat) = mask.length from hm.symm, List.drop_left]
  rw [hd, maskBytes_involutive]

theorem lor128_land15 (x : Nat) (hx : x < 16) : (128 ||| x) &&& 15 = x := by
  apply Nat.eq_of_testBit_eq
  intro i
  simp only [Nat.testBit_and, Nat.testBit_or]
  have h15 : Nat.testBit 15 i = decide (i < 4) := by
    have h := Nat.testBit_two_pow_sub_one 4 i
    norm_num at h
    exact h
  have h128 : Nat.testBit 128 i = decide (7 = i) := by
    have h : (128 : Nat) = 2 ^ 7 := by norm_num
    rw [h, Nat.testBit_two_pow]
  rw [h15, h128]
  rcases Nat.lt_or_ge i 4 with hi | hi
  · rw [decide_eq_true hi, decide_eq_false (by omega : ¬(7 = i))]
    simp
  · rw [decide_eq_false (by omega : ¬(i < 4))]
    have hx2 : Nat.testBit x i = false :=
      Nat.testBit_lt_two_pow (Nat.lt_of_lt_of_le hx (by
        calc (16 : Nat) = 2 ^ 4 := by norm_num
        _ ≤ 2 ^ i := Nat.pow_le_pow_right (by omega) hi))
    rw [hx2]
    simp

theorem lor128_land128_ne (x : Nat) : ((128 ||| x) &&& 128 != 0) = true := by
  have h7 : ((128 ||| x) &&& 128).testBit 7 = true := by
    simp only [Nat.testBit_and, Nat.testBit_or,
      show Nat.testBit 128 7 = true from by decide]
    simp
  simp only [bne_iff_ne, ne_eq]
  intro h0
  rw [h0] at h7
  simp at h7

/-- C3: for every opcode in {Text, Binary, Ping, Pong} and every byte payload
of length at most `2^31`, building an `OutboundFrame`, masking it with
`prepare`, undoing the mask through the fake unmasking peer and feeding the
result to the inbound decoder finalizes a frame with the same opcode and a
byte-for-byte equal payload (and `fin = true`). -/
theorem c3_encode_decode_roundtrip (opcode : Nat) (payload mask s : List Nat)
    (hop : opcode = OPCodes.TextMessage ∨ opcode = OPCodes.BinaryMessage ∨
      opcode = OPCodes.Ping ∨ opcode = OPCodes.Pong)
    (hlen : payload.length ≤ 2 ^ 31)
    (hmask : mask.length = 4) (hbytes : ∀ b ∈ payload, b < 256)
    (hs : s = fakeUnmaskingPeer
      ((OutboundFrame.build opcode payload 1005).prepareWith mask)
      (OutboundFrame.build opcode payload 1005).header mask) :
    (decodeOnce s).2.2 = true ∧
    (decodeOnce s).1.opcode = opcode ∧
    (decodeOnce s).1.fin = true ∧
    (decodeOnce s).1.data = payload := by
  subst hs
  have hop8 : ¬opcode = OPCodes.SocketClose := by
    rcases hop with h | h | h | h <;> subst h <;> decide
  by_cases hA : payload.length ≤ 125
  · have hb := build_small opcode payload 1005 hop8 hA
    rw [hb]
    have hprep : (OutboundFrame.mk ((128 ||| opcode) :: (128 ||| payload.length) ::
        (List.replicate 4 0 ++ payload)) 2 6).prepareWith mask =
        [128 ||| opcode, 128 ||| payload.length] ++ (mask ++ maskBytes mask 0 payload) :=
      prepareWith_eval [128 ||| opcode, 128 ||| payload.length] payload mask hmask
    rw [hprep]
    have hfake : fakeUnmaskingPeer
        ([128 ||| opcode, 128 ||| payload.length] ++ (mask ++ maskBytes mask 0 payload))
        (OutboundFrame.mk ((128 ||| opcode) :: (128 ||| payload.length) ::
          (List.replicate 4 0 ++ payload)) 2 6).header mask =
        (128 ||| opcode) :: (128 ||| payload.length) :: payload :=
      fakeUnmaskingPeer_eval [128 ||| opcode, 128 ||| payload.length] payload mask hmask
    rw [hfake]
    have hne2 : (128 ||| opcode) :: (128 ||| payload.length) :: payload ≠ [] := by simp
    have hdr := decodeOnce_refine _ hne2
    have hdf := decodeF_len7 (128 ||| opcode) payload.length payload rfl hA
    refine ⟨?_, ?_, ?_, ?_⟩
    · rw [hdr.2.2.1, hdf]
    · rw [hdr.1, hdf]
      show (128 ||| opcode) &&& 15 = opcode
      exact lor128_land15 opcode
        (by rcases hop with h | h | h | h <;> subst h <;> decide)
    · rw [hdr.1, hdf]
      show ((128 ||| opcode) &&& 128 != 0) = true
      exact lor128_land128_ne opcode
    · rw [hdr.1, hdf]
  · by_cases hB : payload.length ≤ 65535
    · have hb := build_mid opcode payload 1005 hop8 hA hB
      rw [hb]
      have hprep : (OutboundFrame.mk ((128 ||| opcode) :: 254 :: (payload.length / 256) ::
          (payload.length &&& Byte) :: (List.replicate 4 0 ++ payload)) 4 8).prepareWith mask =
          [128 ||| opcode, 254, payload.length / 256, payload.length &&& Byte] ++
            (mask ++ maskBytes mask 0 payload) :=
        prepareWith_eval [128 ||| opcode, 254, payload.length / 256, payload.length &&& Byte]
          payload mask hmask
      rw [hprep]
      have hfake : fakeUnmaskingPeer
          ([128 ||| opcode, 254, payload.length / 256, payload.length &&& Byte] ++
            (mask ++ maskBytes mask 0 payload))
          (OutboundFrame.mk ((128 ||| opcode) :: 254 :: (payload.length / 256) ::
            (payload.length &&& Byte) :: (List.replicate 4 0 ++ payload)) 4 8).header mask =
          (128 ||| opcode) :: 254 :: (payload.length / 256) :: (payload.length &&& Byte) ::
            payload :=
        fakeUnmaskingPeer_eval
          [128 ||| opcode, 254, payload.length / 256, payload.length &&& Byte]
          payload mask hmask
      rw [hfake]
      have hmod : payload.length &&& Byte = payload.length % 256 := by
        rw [show Byte = (255 : Nat) from rfl]
        exact land255_eq_mod _
      have hL : payload.length = 256 * (payload.length / 256) + (payload.length &&& Byte) := by
        rw [hmod]
        omega
      have hne2 : (128 ||| opcode) :: 254 :: (payload.length / 256) ::
          (payload.length &&& Byte) :: payload ≠ [] := by simp
      have hdr := decodeOnce_refine _ hne2
      have hdf := decodeF_len16 (128 ||| opcode) (payload.length / 256)
        (payload.length &&& Byte) payload hL
      refine ⟨?_, ?_, ?_, ?_⟩
      · rw [hdr.2.2.1, hdf]
      · rw [hdr.1, hdf]
        show (128 ||| opcode) &&& 15 = opcode
        exact lor128_land15 opcode
          (by rcases hop with h | h | h | h <;> subst h <;> decide)
      · rw [hdr.1, hdf]
        show ((128 ||| opcode) &&& 128 != 0) = true
        exact lor128_land128_ne opcode
      · rw [hdr.1, hdf]
    · have hb := build_large opcode payload 1005 hop8 hA hB
      rw [hb]
      have hprep : (OutboundFrame.mk ((128 ||| opcode) :: 255 ::
          (payload.length / 72057594037927940 &&& Byte) ::
          (payload.length / 281474976710656 &&& Byte) ::
          (payload.length / 1099511627776 &&& Byte) ::
          (payload.length / 4294967296 &&& Byte) ::
          (payload.length / 16777216 &&& Byte) ::
          (payload.length / 65536 &&& Byte) ::
          (payload.length / 256 &&& Byte) ::
          (payload.length &&& Byte) ::
          (List.replicate 4 0 ++ payload)) 10 14).prepareWith mask =
          [128 ||| opcode, 255,
            payload.length / 72057594037927940 &&& Byte,
            payload.length / 281474976710656 &&& Byte,
            payload.length / 1099511627776 &&& Byte,
            payload.length / 4294967296 &&& Byte,
            payload.length / 16777216 &&& Byte,
            payload.length / 65536 &&& Byte,
            payload.length / 256 &&& Byte,
            payload.length &&& Byte] ++ (mask ++ maskBytes mask 0 payload) :=
        prepareWith_eval [128 ||| opcode, 255,
            payload.length / 72057594037927940 &&& Byte,
            payload.length / 281474976710656 &&& Byte,
            payload.length / 1099511627776 &&& Byte,
            payload.length / 4294967296 &&& Byte,
            payload.length / 16777216 &&& Byte,
            payload.length / 65536 &&& Byte,
            payload.length / 256 &&& Byte,
            payload.length &&& Byte] payload mask hmask
      rw [hprep]
      have hfake : fakeUnmaskingPeer
          ([128 ||| opcode, 255,
            payload.length / 72057594037927940 &&& Byte,
            payload.length / 281474976710656 &&& Byte,
            payload.length / 1099511627776 &&& Byte,
            payload.length / 4294967296 &&& Byte,
            payload.length / 16777216 &&& Byte,
            payload.length / 65536 &&& Byte,
            payload.length / 256 &&& Byte,
            payload.length &&& Byte] ++ (mask ++ maskBytes mask 0 payload))
          (OutboundFrame.mk ((128 ||| opcode) :: 255 ::
            (payload.length / 72057594037927940 &&& Byte) ::
            (payload.length / 281474976710656 &&& Byte) ::
            (payload.length / 1099511627776 &&& Byte) ::
            (payload.length / 4294967296 &&& Byte) ::
            (payload.length / 16777216 &&& Byte) ::
            (payload.length / 65536 &&& Byte) ::
            (payload.length / 256 &&& Byte) ::
            (payload.length &&& Byte) ::
            (List.replicate 4 0 ++ payload)) 10 14).header mask =
          (128 ||| opcode) :: 255 ::
            (payload.length / 72057594037927940 &&& Byte) ::
            (payload.length / 281474976710656 &&& Byte) ::
            (payload.length / 1099511627776 &&& Byte) ::
            (payload.length / 4294967296 &&& Byte) ::
            (payload.length / 16777216 &&& Byte) ::
            (payload.length / 65536 &&& Byte) ::
            (payload.length / 256 &&& Byte) ::
            (payload.length &&& Byte) :: payload :=
        fakeUnmaskingPeer_eval [128 ||| opcode, 255,
            payload.length / 72057594037927940 &&& Byte,
            payload.length / 281474976710656 &&& Byte,
            payload.length / 1099511627776 &&& Byte,
            payload.length / 4294967296 &&& Byte,
            payload.length / 16777216 &&& Byte,
            payload.length / 65536 &&& Byte,
            payload.length / 256 &&& Byte,
            payload.length &&& Byte] payload mask hmask
      rw [hfake]
      have hm6 : payload.length / 16777216 &&& Byte = payload.length / 16777216 % 256 := by
        rw [show Byte = (255 : Nat) from rfl]
        exact land255_eq_mod _
      have hm7 : payload.length / 65536 &&& Byte = payload.length / 65536 % 256 := by
        rw [show Byte = (255 : Nat) from rfl]
        exact land255_eq_mod _
      have hm8 : payload.length / 256 &&& Byte = payload.length / 256 % 256 := by
        rw [show Byte = (255 : Nat) from rfl]
        exact land255_eq_mod _
      have hm9 : payload.length &&& Byte = payload.length % 256 := by
        rw [show Byte = (255 : Nat) from rfl]
        exact land255_eq_mod _
      have hL : payload.length =
          16777216 * (payload.length / 16777216 &&& Byte) +
          65536 * (payload.length / 65536 &&& Byte) +
          256 * (payload.length / 256 &&& Byte) + (payload.length &&& Byte) := by
        rw [hm6, hm7, hm8, hm9]
        have hub : payload.length < 4294967296 := by
          have : (2 : Nat) ^ 31 < 4294967296 := by norm_num
          omega
        omega
      have hne2 : (128 ||| opcode) :: 255 ::
          (payload.length / 72057594037927940 &&& Byte) ::
          (payload.length / 281474976710656 &&& Byte) ::
          (payload.length / 1099511627776 &&& Byte) ::
          (payload.length / 4294967296 &&& Byte) ::
          (payload.length / 16777216 &&& Byte) ::
          (payload.length / 65536 &&& Byte) ::
          (payload.length / 256 &&& Byte) ::
          (payload.length &&& Byte) :: payload ≠ [] := by simp
      have hdr := decodeOnce_refine _ hne2
      have hdf := decodeF_len64 (128 ||| opcode)
        (payload.length / 72057594037927940 &&& Byte)
        (payload.length / 281474976710656 &&& Byte)
        (payload.length / 1099511627776 &&& Byte)
        (payload.length / 4294967296 &&& Byte)
        (payload.length / 16777216 &&& Byte)
        (payload.length / 65536 &&& Byte)
        (payload.length / 256 &&& Byte)
        (payload.length &&& Byte) payload hL
      refine ⟨?_, ?_, ?_, ?_⟩
      · rw [hdr.2.2.1, hdf]
      · rw [hdr.1, hdf]
        show (128 ||| opcode) &&& 15 = opcode
        exact lor128_land15 opcode
          (by rcases hop with h | h | h | h <;> subst h <;> decide)
      · rw [hdr.1, hdf]
        show ((128 ||| opcode) &&& 128 != 0) = true
        exact lor128_land128_ne opcode
      · rw [hdr.1, hdf]

/-- Witness for C3 at opcode 1, payload "Hi", mask `37 FA 21 3D`. -/
theorem c3_encode_decode_roundtrip_witness :
    (decodeOnce (fakeUnmaskingPeer
      ((OutboundFrame.build 0x1 [0x48, 0x69] 1005).prepareWith [0x37, 0xFA, 0x21, 0x3D])
      (OutboundFrame.build 0x1 [0x48, 0x69] 1005).header [0x37, 0xFA, 0x21, 0x3D])).1.data =
      [0x48, 0x69] ∧
    (decodeOnce (fakeUnmaskingPeer
      ((OutboundFrame.build 0x1 [0x48, 0x69] 1005).prepareWith [0x37, 0xFA, 0x21, 0x3D])
      (OutboundFrame.build 0x1 [0x48, 0x69] 1005).header [0x37, 0xFA, 0x21, 0x3D])).1.opcode =
      0x1 := by
  have h := c3_encode_decode_roundtrip 0x1 [0x48, 0x69] [0x37, 0xFA, 0x21, 0x3D]
    (fakeUnmaskingPeer
      ((OutboundFrame.build 0x1 [0x48, 0x69] 1005).prepareWith [0x37, 0xFA, 0x21, 0x3D])
      (OutboundFrame.build 0x1 [0x48, 0x69] 1005).header [0x37, 0xFA, 0x21, 0x3D])
    (Or.inl rfl) (by norm_num) (by decide) (by decide) rfl
  exact ⟨h.2.2.2, h.2.1⟩
